import Mathlib

/-!
Verification of the action-lifecycle, aggregation, deviation-detection,
scheduling and persistence logic of the ioBroker `ai-autopilot` adapter
(`src/main.js`, first `AiAutopilot` class).  Every definition below is a
shallow embedding of the corresponding JavaScript function, keeping the
source's names where Lean allows it.  JavaScript numbers are modelled as
`JsNum` (a rational or one of the non-finite markers); float rounding and
overflow are outside the model.  JavaScript `undefined`/`null` string
fields are modelled as `Option String`, with `""` the only falsy
non-null string value.
-/

namespace AiAutopilot

/-- Result of JavaScript `Number(...)` coercion: a finite value (modelled as
a rational) or one of the non-finite markers `NaN`, `Infinity`, `-Infinity`. -/
inductive JsNum where
  | num (q : ℚ)
  | nan
  | posInf
  | negInf
deriving DecidableEq

/-- JavaScript `Number.isFinite`. -/
def JsNum.isFinite : JsNum → Bool
  | .num _ => true
  | _ => false

/-- JavaScript truthiness of an optional string field: `undefined`, `null`
and `""` are falsy, every other string is truthy. -/
def strTruthy : Option String → Bool
  | some s => s ≠ ""
  | none => false

/-- JavaScript `v || d` where `v` is an optional string and `d` a string. -/
def strOr (v : Option String) (d : String) : String :=
  match v with
  | some s => if s = "" then d else s
  | none => d

/-- JavaScript `v || null` on an optional string. -/
def strOrNull (v : Option String) : Option String :=
  match v with
  | some s => if s = "" then none else some s
  | none => none

/-- JSON values (`JSON.parse` output). Object fields are kept in insertion
order; the parser collapses duplicate keys the way JavaScript does. -/
inductive Json where
  | null
  | bool (b : Bool)
  | num (q : ℚ)
  | str (s : String)
  | arr (items : List Json)
  | obj (fields : List (String × Json))

mutual

/-- Decidable equality for JSON values (the nested inductive prevents
automatic derivation). -/
def Json.decEq : (a b : Json) → Decidable (a = b)
  | .null, .null => isTrue rfl
  | .bool a, .bool b =>
    if h : a = b then isTrue (by rw [h]) else isFalse (fun hc => h (by cases hc; rfl))
  | .num a, .num b =>
    if h : a = b then isTrue (by rw [h]) else isFalse (fun hc => h (by cases hc; rfl))
  | .str a, .str b =>
    if h : a = b then isTrue (by rw [h]) else isFalse (fun hc => h (by cases hc; rfl))
  | .arr xs, .arr ys =>
    match Json.decEqList xs ys with
    | isTrue h => isTrue (by rw [h])
    | isFalse h => isFalse (fun hc => h (by cases hc; rfl))
  | .obj xs, .obj ys =>
    match Json.decEqFields xs ys with
    | isTrue h => isTrue (by rw [h])
    | isFalse h => isFalse (fun hc => h (by cases hc; rfl))
  | .null, .bool _ => isFalse (fun h => Json.noConfusion h)
  | .null, .num _ => isFalse (fun h => Json.noConfusion h)
  | .null, .str _ => isFalse (fun h => Json.noConfusion h)
  | .null, .arr _ => isFalse (fun h => Json.noConfusion h)
  | .null, .obj _ => isFalse (fun h => Json.noConfusion h)
  | .bool _, .null => isFalse (fun h => Json.noConfusion h)
  | .bool _, .num _ => isFalse (fun h => Json.noConfusion h)
  | .bool _, .str _ => isFalse (fun h => Json.noConfusion h)
  | .bool _, .arr _ => isFalse (fun h => Json.noConfusion h)
  | .bool _, .obj _ => isFalse (fun h => Json.noConfusion h)
  | .num _, .null => isFalse (fun h => Json.noConfusion h)
  | .num _, .bool _ => isFalse (fun h => Json.noConfusion h)
  | .num _, .str _ => isFalse (fun h => Json.noConfusion h)
  | .num _, .arr _ => isFalse (fun h => Json.noConfusion h)
  | .num _, .obj _ => isFalse (fun h => Json.noConfusion h)
  | .str _, .null => isFalse (fun h => Json.noConfusion h)
  | .str _, .bool _ => isFalse (fun h => Json.noConfusion h)
  | .str _, .num _ => isFalse (fun h => Json.noConfusion h)
  | .str _, .arr _ => isFalse (fun h => Json.noConfusion h)
  | .str _, .obj _ => isFalse (fun h => Json.noConfusion h)
  | .arr _, .null => isFalse (fun h => Json.noConfusion h)
  | .arr _, .bool _ => isFalse (fun h => Json.noConfusion h)
  | .arr _, .num _ => isFalse (fun h => Json.noConfusion h)
  | .arr _, .str _ => isFalse (fun h => Json.noConfusion h)
  | .arr _, .obj _ => isFalse (fun h => Json.noConfusion h)
  | .obj _, .null => isFalse (fun h => Json.noConfusion h)
  | .obj _, .bool _ => isFalse (fun h => Json.noConfusion h)
  | .obj _, .num _ => isFalse (fun h => Json.noConfusion h)
  | .obj _, .str _ => isFalse (fun h => Json.noConfusion h)
  | .obj _, .arr _ => isFalse (fun h => Json.noConfusion h)

/-- Decidable equality for JSON value lists. -/
def Json.decEqList : (a b : List Json) → Decidable (a = b)
  | [], [] => isTrue rfl
  | [], _ :: _ => isFalse (fun h => List.noConfusion h)
  | _ :: _, [] => isFalse (fun h => List.noConfusion h)
  | x :: xs, y :: ys =>
    match Json.decEq x y with
    | isFalse h => isFalse (fun hc => h (by cases hc; rfl))
    | isTrue h1 =>
      match Json.decEqList xs ys with
      | isTrue h2 => isTrue (by rw [h1, h2])
      | isFalse h => isFalse (fun hc => h (by cases hc; rfl))

/-- Decidable equality for JSON object field lists. -/
def Json.decEqFields : (a b : List (String × Json)) → Decidable (a = b)
  | [], [] => isTrue rfl
  | [], _ :: _ => isFalse (fun h => List.noConfusion h)
  | _ :: _, [] => isFalse (fun h => List.noConfusion h)
  | (k, v) :: xs, (l, w) :: ys =>
    if hk : k = l then
      match Json.decEq v w with
      | isFalse h => isFalse (fun hc => h (by cases hc; rfl))
      | isTrue hv =>
        match Json.decEqFields xs ys with
        | isTrue ht => isTrue (by rw [hk, hv, ht])
        | isFalse h => isFalse (fun hc => h (by cases hc; rfl))
    else isFalse (fun hc => hk (by cases hc; rfl))

end

instance : DecidableEq Json := Json.decEq

/-- The `timestamps` record of an action (`createdAt` / `decidedAt` /
`executedAt`, each a string timestamp or null/undefined). -/
structure ActionTimestamps where
  createdAt : Option String
  decidedAt : Option String
  executedAt : Option String
deriving DecidableEq

/-- An all-`undefined` timestamps record, the `{}` default of
`buildActionTimestamps`. -/
def emptyTimestamps : ActionTimestamps := ⟨none, none, none⟩

/-- The context snapshot attached to synthesized actions
(`buildActionContext`): summary values are null or finite. -/
structure ActionCtx where
  timestamp : String
  batterySoc : Option ℚ
  houseConsumption : Option ℚ
  outsideTemp : Option ℚ
  pvPower : Option ℚ
deriving DecidableEq

/-- An Action record.  Fields the program may leave `undefined` (or `null`)
are `Option`s with default `none`; `target`/`value` may hold arbitrary JSON. -/
structure Action where
  id : Option String := none
  category : Option String := none
  type : Option String := none
  target : Option Json := none
  value : Option Json := none
  unit : Option String := none
  priority : Option String := none
  title : Option String := none
  description : Option String := none
  reason : Option String := none
  context : Option ActionCtx := none
  requiresApproval : Option Bool := none
  status : Option String := none
  decision : Option String := none
  timestamps : Option ActionTimestamps := none
  source : Option String := none
  learningKey : Option String := none
  deviationRef : Option String := none
deriving DecidableEq

/-- JavaScript `String.prototype.toLowerCase` (ASCII range, which covers
every string the adapter compares after lowering). -/
def toLowerString (s : String) : String :=
  String.mk (s.data.map Char.toLower)

/-- The five recognised action statuses (`normalizeActionStatus`). -/
def actionStatusValues : List String :=
  ["proposed", "approved", "rejected", "executed", "failed"]

/-- Core of `normalizeActionStatus` on the already-coerced string. -/
def normalizeStatusString (s : String) : String :=
  let normalized := toLowerString s
  if actionStatusValues.contains normalized then normalized
  else if normalized = "sent" then "proposed"
  else "proposed"

/-- `normalizeActionStatus(status)`: `String(status || 'proposed').toLowerCase()`
checked against the recognised statuses, with legacy `sent` and everything
unknown mapped to `proposed`. -/
def normalizeActionStatus (status : Option String) : String :=
  normalizeStatusString (strOr status "proposed")

/-- The transition table of `isActionTransitionAllowed`: rows for the five
statuses, everything else defaulting to the empty list. -/
def actionTransitions (currentStatus : String) : List String :=
  if currentStatus = "proposed" then ["approved", "rejected"]
  else if currentStatus = "approved" then ["executed", "failed"]
  else []

/-- `isActionTransitionAllowed(currentStatus, nextStatus)`. -/
def isActionTransitionAllowed (currentStatus nextStatus : String) : Bool :=
  if currentStatus = nextStatus then true
  else (actionTransitions currentStatus).contains nextStatus

/-- Whether a normalized status is terminal (`rejected`/`executed`/`failed`). -/
def isTerminalStatus (s : String) : Bool :=
  s = "rejected" ∨ s = "executed" ∨ s = "failed"

/-- `buildActionTimestamps(existing)`: keeps truthy stamps, fills
`createdAt` with the current time, resets falsy decided/executed stamps to
null.  `now` stands for `new Date().toISOString()`. -/
def buildActionTimestamps (now : String) (existing : ActionTimestamps) : ActionTimestamps :=
  { createdAt := some (strOr existing.createdAt now)
    decidedAt := strOrNull existing.decidedAt
    executedAt := strOrNull existing.executedAt }

/-- `applyActionStatusTransition(action, nextStatus)` on a non-null action.
Returns the boolean result together with the (possibly mutated) record;
`now` stands for `new Date().toISOString()`. -/
def applyActionStatusTransition (now : String) (action : Action) (nextStatus : String) :
    Bool × Action :=
  let currentStatus := normalizeActionStatus action.status
  let targetStatus := normalizeActionStatus (some nextStatus)
  if ¬ isActionTransitionAllowed currentStatus targetStatus then
    (false, action)
  else
    let ts0 := buildActionTimestamps now (action.timestamps.getD emptyTimestamps)
    let decision1 :=
      if targetStatus = "approved" then some "approved"
      else if targetStatus = "rejected" then some "rejected"
      else action.decision
    let ts1 :=
      if targetStatus = "approved" ∨ targetStatus = "rejected" then
        { ts0 with decidedAt := some (strOr ts0.decidedAt now) }
      else ts0
    let ts2 :=
      if targetStatus = "executed" ∨ targetStatus = "failed" then
        { ts1 with executedAt := some (strOr ts1.executedAt now) }
      else ts1
    (true,
      { action with
        status := some targetStatus
        decision := decision1
        timestamps := some ts2 })

/-- A sequence of `applyActionStatusTransition` calls; each step carries the
`now` timestamp of the call and the requested status. -/
def applyTransitions (steps : List (String × String)) (action : Action) : Action :=
  steps.foldl (fun act step => (applyActionStatusTransition step.1 act step.2).2) action

/-- The `decidedAt` stamp of an action, read through the optional
`timestamps` record. -/
def actionDecidedAt (action : Action) : Option String :=
  Option.bind action.timestamps ActionTimestamps.decidedAt

/-- The `executedAt` stamp of an action. -/
def actionExecutedAt (action : Action) : Option String :=
  Option.bind action.timestamps ActionTimestamps.executedAt

/-- The dedup key template of `dedupeActions` when `action.id` is falsy:
`category:type:learningKey:deviationRef` with the source's defaults. -/
def actionFallbackKey (action : Action) : String :=
  strOr action.category "unknown" ++ ":" ++ strOr action.type "action" ++ ":" ++
    strOr action.learningKey "" ++ ":" ++ strOr action.deviationRef ""

/-- The merge key of `dedupeActions`: `action.id || template`. -/
def actionKey (action : Action) : String :=
  strOr action.id (actionFallbackKey action)

/-- `Map.prototype.set`: replace in place when the key exists (keeping the
original insertion position), append otherwise. -/
def mapInsert (entries : List (String × Action)) (key : String) (action : Action) :
    List (String × Action) :=
  if entries.any (fun p => p.1 = key) then
    entries.map (fun p => if p.1 = key then (key, action) else p)
  else
    entries ++ [(key, action)]

/-- The insertion-ordered map built by the loop of `dedupeActions`;
`none` entries model the falsy actions skipped by `if (!action) continue`. -/
def dedupeFold (actions : List (Option Action)) : List (String × Action) :=
  actions.foldl
    (fun acc oa =>
      match oa with
      | none => acc
      | some action => mapInsert acc (actionKey action) action)
    []

/-- `dedupeActions(actions)`: later entries replace earlier ones with the
same key; output order is first-insertion order of the keys. -/
def dedupeActions (actions : List (Option Action)) : List Action :=
  (dedupeFold actions).map Prod.snd


lemma terminal_actionTransitions_empty {s : String} (h : isTerminalStatus s = true) :
    actionTransitions s = [] := by
  have h' : s = "rejected" ∨ s = "executed" ∨ s = "failed" := by
    simpa [isTerminalStatus] using h
  rcases h' with h' | h' | h' <;> subst h' <;> decide

lemma isActionTransitionAllowed_terminal {s t : String} (hterm : isTerminalStatus s = true)
    (hne : t ≠ s) : isActionTransitionAllowed s t = false := by
  simp only [isActionTransitionAllowed]
  rw [if_neg (by exact fun h => hne h.symm)]
  rw [terminal_actionTransitions_empty hterm]
  rfl

lemma isActionTransitionAllowed_self (s : String) : isActionTransitionAllowed s s = true := by
  simp [isActionTransitionAllowed]

/-- C1 (amended). From a terminal normalized status (`rejected`, `executed`,
`failed`), any transition request to a different normalized status returns
`false` and leaves the record completely unchanged; a request for the
current normalized status is accepted (returns `true`) and keeps the status
at that value (though it may back-fill decision and missing timestamps, so
it is not in general a strict no-op). -/
theorem terminal_status_never_regresses (now : String) (a : Action) (next : String) :
    (isTerminalStatus (normalizeActionStatus a.status) = true →
      normalizeActionStatus (some next) ≠ normalizeActionStatus a.status →
      applyActionStatusTransition now a next = (false, a)) ∧
    (normalizeActionStatus (some next) = normalizeActionStatus a.status →
      (applyActionStatusTransition now a next).1 = true ∧
      (applyActionStatusTransition now a next).2.status =
        some (normalizeActionStatus a.status)) := by
  constructor
  · intro hterm hne
    have hallowed :
        isActionTransitionAllowed (normalizeActionStatus a.status)
          (normalizeActionStatus (some next)) = false :=
      isActionTransitionAllowed_terminal hterm hne
    simp [applyActionStatusTransition, hallowed]
  · intro hself
    simp [applyActionStatusTransition, hself, isActionTransitionAllowed_self]

/-- Witness for `terminal_status_never_regresses`: a rejected action denies a
move to `approved` unchanged, and a proposed action accepts the proposed
self-transition. -/
theorem terminal_status_never_regresses_witness :
    applyActionStatusTransition "N" { status := some "rejected" : Action } "approved" =
      (false, { status := some "rejected" : Action }) ∧
    (applyActionStatusTransition "N" { status := some "proposed" : Action } "proposed").1 =
      true := by
  refine ⟨?_, ?_⟩
  · exact (terminal_status_never_regresses "N" { status := some "rejected" } "approved").1
      (by decide) (by decide)
  · exact ((terminal_status_never_regresses "N"
      { status := some "proposed" } "proposed").2 (by decide)).1

/-- An action whose raw status is already terminal but whose timestamps have
never been stamped: the self-transition accepted by the state machine
back-fills `executedAt`, so it is not a no-op. -/
def selfTransitionSample : Action := { status := some "executed" }

/-- Counterexample to C1 as stated: the self-transition `executed → executed`
is accepted (returns `true`) but does *not* leave the record unchanged — it
creates the timestamps object and stamps `executedAt`. -/
theorem self_transition_not_noop :
    (applyActionStatusTransition "2024-01-01T00:00:00.000Z" selfTransitionSample
        "executed").1 = true ∧
    (applyActionStatusTransition "2024-01-01T00:00:00.000Z" selfTransitionSample
        "executed").2.timestamps ≠ selfTransitionSample.timestamps := by
  decide

lemma applyActionStatusTransition_denied (now next : String) (a : Action)
    (h : isActionTransitionAllowed (normalizeActionStatus a.status)
      (normalizeActionStatus (some next)) = false) :
    applyActionStatusTransition now a next = (false, a) := by
  simp [applyActionStatusTransition, h]

lemma applyActionStatusTransition_timestamps (now next : String) (a : Action)
    (hallow : isActionTransitionAllowed (normalizeActionStatus a.status)
      (normalizeActionStatus (some next)) = true) :
    (applyActionStatusTransition now a next).2.timestamps =
      some
        { createdAt := (buildActionTimestamps now (a.timestamps.getD emptyTimestamps)).createdAt
          decidedAt :=
            if normalizeActionStatus (some next) = "approved" ∨
                normalizeActionStatus (some next) = "rejected" then
              some (strOr (buildActionTimestamps now (a.timestamps.getD emptyTimestamps)).decidedAt
                now)
            else (buildActionTimestamps now (a.timestamps.getD emptyTimestamps)).decidedAt
          executedAt :=
            if normalizeActionStatus (some next) = "executed" ∨
                normalizeActionStatus (some next) = "failed" then
              some (strOr
                (buildActionTimestamps now (a.timestamps.getD emptyTimestamps)).executedAt now)
            else (buildActionTimestamps now (a.timestamps.getD emptyTimestamps)).executedAt } := by
  simp only [applyActionStatusTransition, hallow]
  by_cases hd : normalizeActionStatus (some next) = "approved" ∨
      normalizeActionStatus (some next) = "rejected" <;>
    by_cases he : normalizeActionStatus (some next) = "executed" ∨
        normalizeActionStatus (some next) = "failed" <;>
      simp [hd, he]

lemma buildActionTimestamps_decidedAt (now : String) (a : Action) (d : String) (hd : d ≠ "")
    (h : actionDecidedAt a = some d) :
    (buildActionTimestamps now (a.timestamps.getD emptyTimestamps)).decidedAt = some d := by
  cases hw : a.timestamps with
  | none => simp [actionDecidedAt, hw] at h
  | some ts =>
    have : ts.decidedAt = some d := by simpa [actionDecidedAt, hw] using h
    simp [buildActionTimestamps, hw, this, strOrNull, hd]

lemma buildActionTimestamps_executedAt (now : String) (a : Action) (e : String) (he : e ≠ "")
    (h : actionExecutedAt a = some e) :
    (buildActionTimestamps now (a.timestamps.getD emptyTimestamps)).executedAt = some e := by
  cases hw : a.timestamps with
  | none => simp [actionExecutedAt, hw] at h
  | some ts =>
    have : ts.executedAt = some e := by simpa [actionExecutedAt, hw] using h
    simp [buildActionTimestamps, hw, this, strOrNull, he]

lemma applyActionStatusTransition_decidedAt_preserved (now next : String) (a : Action)
    (d : String) (hd : d ≠ "") (h : actionDecidedAt a = some d) :
    actionDecidedAt (applyActionStatusTransition now a next).2 = some d := by
  by_cases hallow : isActionTransitionAllowed (normalizeActionStatus a.status)
      (normalizeActionStatus (some next)) = true
  · have hts := applyActionStatusTransition_timestamps now next a hallow
    have hbd := buildActionTimestamps_decidedAt now a d hd h
    simp only [actionDecidedAt, hts, Option.bind_some]
    split <;> simp [hbd, strOr, hd]
  · rw [applyActionStatusTransition_denied now next a (by simpa using hallow)]
    exact h

lemma applyActionStatusTransition_executedAt_preserved (now next : String) (a : Action)
    (e : String) (he : e ≠ "") (h : actionExecutedAt a = some e) :
    actionExecutedAt (applyActionStatusTransition now a next).2 = some e := by
  by_cases hallow : isActionTransitionAllowed (normalizeActionStatus a.status)
      (normalizeActionStatus (some next)) = true
  · have hts := applyActionStatusTransition_timestamps now next a hallow
    have hbe := buildActionTimestamps_executedAt now a e he h
    simp only [actionExecutedAt, hts, Option.bind_some]
    split <;> simp [hbe, strOr, he]
  · rw [applyActionStatusTransition_denied now next a (by simpa using hallow)]
    exact h

lemma applyTransitions_decidedAt_preserved (steps : List (String × String)) (a : Action)
    (d : String) (hd : d ≠ "") (h : actionDecidedAt a = some d) :
    actionDecidedAt (applyTransitions steps a) = some d := by
  induction steps generalizing a with
  | nil => simpa [applyTransitions] using h
  | cons step rest ih =>
    simp only [applyTransitions, List.foldl_cons]
    exact ih _ (applyActionStatusTransition_decidedAt_preserved step.1 step.2 a d hd h)

lemma applyTransitions_executedAt_preserved (steps : List (String × String)) (a : Action)
    (e : String) (he : e ≠ "") (h : actionExecutedAt a = some e) :
    actionExecutedAt (applyTransitions steps a) = some e := by
  induction steps generalizing a with
  | nil => simpa [applyTransitions] using h
  | cons step rest ih =>
    simp only [applyTransitions, List.foldl_cons]
    exact ih _ (applyActionStatusTransition_executedAt_preserved step.1 step.2 a e he h)

lemma strOrNull_falsy (v : Option String) (h : strTruthy v = false) : strOrNull v = none := by
  cases v with
  | none => rfl
  | some s =>
    have : s = "" := by simpa [strTruthy] using h
    simp [strOrNull, this]

/-- C2 (amended). Over any sequence of `applyActionStatusTransition` calls,
a non-empty `decidedAt` (resp. `executedAt`) stamp is never overwritten:
the value written first persists.  A single accepted transition into
`approved`/`rejected` (resp. `executed`/`failed`) stamps `decidedAt` (resp.
`executedAt`) with the transition time when the stamp was still unset
(null, undefined or the empty string). -/
theorem action_timestamps_first_write_wins (steps : List (String × String)) (a : Action)
    (now next : String) :
    (∀ d, d ≠ "" → actionDecidedAt a = some d →
      actionDecidedAt (applyTransitions steps a) = some d) ∧
    (∀ e, e ≠ "" → actionExecutedAt a = some e →
      actionExecutedAt (applyTransitions steps a) = some e) ∧
    (strTruthy (actionDecidedAt a) = false →
      (normalizeActionStatus (some next) = "approved" ∨
        normalizeActionStatus (some next) = "rejected") →
      (applyActionStatusTransition now a next).1 = true →
      actionDecidedAt (applyActionStatusTransition now a next).2 = some now) ∧
    (strTruthy (actionExecutedAt a) = false →
      (normalizeActionStatus (some next) = "executed" ∨
        normalizeActionStatus (some next) = "failed") →
      (applyActionStatusTransition now a next).1 = true →
      actionExecutedAt (applyActionStatusTransition now a next).2 = some now) := by
  refine ⟨fun d hd h => applyTransitions_decidedAt_preserved steps a d hd h,
    fun e he h => applyTransitions_executedAt_preserved steps a e he h, ?_, ?_⟩
  · intro hfalsy htgt hok
    have hallow : isActionTransitionAllowed (normalizeActionStatus a.status)
        (normalizeActionStatus (some next)) = true := by
      by_contra hc
      rw [applyActionStatusTransition_denied now next a (by simpa using hc)] at hok
      simp at hok
    have hts := applyActionStatusTransition_timestamps now next a hallow
    have hdec0 :
        (buildActionTimestamps now (a.timestamps.getD emptyTimestamps)).decidedAt = none := by
      cases hw : a.timestamps with
      | none => simp [buildActionTimestamps, emptyTimestamps, strOrNull]
      | some ts =>
        have : strTruthy ts.decidedAt = false := by simpa [actionDecidedAt, hw] using hfalsy
        simp [buildActionTimestamps, hw, strOrNull_falsy _ this]
    simp [actionDecidedAt, hts, htgt, hdec0, strOr]
  · intro hfalsy htgt hok
    have hallow : isActionTransitionAllowed (normalizeActionStatus a.status)
        (normalizeActionStatus (some next)) = true := by
      by_contra hc
      rw [applyActionStatusTransition_denied now next a (by simpa using hc)] at hok
      simp at hok
    have hts := applyActionStatusTransition_timestamps now next a hallow
    have hexe0 :
        (buildActionTimestamps now (a.timestamps.getD emptyTimestamps)).executedAt = none := by
      cases hw : a.timestamps with
      | none => simp [buildActionTimestamps, emptyTimestamps, strOrNull]
      | some ts =>
        have : strTruthy ts.executedAt = false := by simpa [actionExecutedAt, hw] using hfalsy
        simp [buildActionTimestamps, hw, strOrNull_falsy _ this]
    simp [actionExecutedAt, hts, htgt, hexe0, strOr]

/-- Witness for `action_timestamps_first_write_wins`: an approved action with
`decidedAt = "D"` keeps that stamp across `executed` and a repeat `executed`
transition, and a fresh proposed action gets `decidedAt` stamped on its
first entry to `approved`. -/
theorem action_timestamps_first_write_wins_witness :
    actionDecidedAt (applyTransitions [("T1", "executed"), ("T2", "executed")]
      { status := some "approved", timestamps := some ⟨some "C", some "D", none⟩ : Action }) =
      some "D" ∧
    actionDecidedAt (applyActionStatusTransition "T1"
      { status := some "proposed" : Action } "approved").2 = some "T1" := by
  constructor
  · exact (action_timestamps_first_write_wins [("T1", "executed"), ("T2", "executed")]
      { status := some "approved", timestamps := some ⟨some "C", some "D", none⟩ }
      "T1" "executed").1 "D" (by decide) (by decide)
  · exact (action_timestamps_first_write_wins []
      { status := some "proposed" } "T1" "approved").2.2.1 (by decide) (by decide) (by decide)

/-- A proposed action whose `decidedAt` already holds the non-null (but
empty, hence falsy) string value. -/
def emptyDecidedAtSample : Action :=
  { status := some "proposed", timestamps := some ⟨some "C", some "", none⟩ }

/-- Counterexample to C2 as stated: `decidedAt` holds the non-null value
`""`, yet the next transition to `approved` overwrites it with the
transition time — the code tests truthiness, not null-ness, so only
non-empty stamps are write-once. -/
theorem decidedAt_nonnull_overwritten :
    actionDecidedAt emptyDecidedAtSample = some "" ∧
    actionDecidedAt (applyActionStatusTransition "NOW" emptyDecidedAtSample "approved").2 =
      some "NOW" := by
  decide

lemma mapInsert_key_inv (entries : List (String × Action)) (a : Action)
    (hinv : ∀ p ∈ entries, p.1 = actionKey p.2) :
    ∀ p ∈ mapInsert entries (actionKey a) a, p.1 = actionKey p.2 := by
  intro p hp
  simp only [mapInsert] at hp
  split at hp
  · obtain ⟨q, hq, hpq⟩ := List.mem_map.1 hp
    by_cases hqk : q.1 = actionKey a
    · simp [hqk] at hpq
      subst hpq
      rfl
    · simp [hqk] at hpq
      subst hpq
      exact hinv q hq
  · rcases List.mem_append.1 hp with h | h
    · exact hinv p h
    · simp at h
      subst h
      rfl

lemma dedupeFold_key_inv (actions : List (Option Action)) :
    ∀ p ∈ dedupeFold actions, p.1 = actionKey p.2 := by
  suffices hgen : ∀ (l : List (Option Action)) (m : List (String × Action)),
      (∀ p ∈ m, p.1 = actionKey p.2) →
      ∀ p ∈ l.foldl (fun acc oa =>
        match oa with
        | none => acc
        | some action => mapInsert acc (actionKey action) action) m, p.1 = actionKey p.2 by
    exact hgen actions [] (by simp)
  intro l
  induction l with
  | nil => intro m hm; simpa using hm
  | cons oa rest ih =>
    intro m hm
    cases oa with
    | none => exact ih m hm
    | some a => exact ih _ (mapInsert_key_inv m a hm)

lemma mapInsert_keys_of_mem (entries : List (String × Action)) (k : String) (a : Action)
    (h : entries.any (fun p => p.1 = k) = true) :
    (mapInsert entries k a).map Prod.fst = entries.map Prod.fst := by
  simp only [mapInsert, h, if_true]
  rw [List.map_map]
  apply List.map_congr_left
  intro p _
  by_cases hpk : p.1 = k
  · simp [hpk]
  · simp [hpk]

lemma mapInsert_keys_of_not_mem (entries : List (String × Action)) (k : String) (a : Action)
    (h : entries.any (fun p => p.1 = k) = false) :
    (mapInsert entries k a).map Prod.fst = entries.map Prod.fst ++ [k] := by
  simp only [mapInsert, h]
  simp

lemma mapInsert_keys_nodup (entries : List (String × Action)) (k : String) (a : Action)
    (h : (entries.map Prod.fst).Nodup) : ((mapInsert entries k a).map Prod.fst).Nodup := by
  cases hmem : entries.any (fun p => p.1 = k) with
  | true => rw [mapInsert_keys_of_mem entries k a hmem]; exact h
  | false =>
    rw [mapInsert_keys_of_not_mem entries k a hmem]
    have hk : k ∉ entries.map Prod.fst := by
      intro hc
      obtain ⟨p, hp, hpk⟩ := List.mem_map.1 hc
      have : entries.any (fun p => p.1 = k) = true := by
        exact List.any_eq_true.2 ⟨p, hp, by simp [hpk]⟩
      simp [this] at hmem
    simp [List.nodup_append, hk, h]

lemma dedupeFold_keys_nodup (actions : List (Option Action)) :
    ((dedupeFold actions).map Prod.fst).Nodup := by
  suffices hgen : ∀ (l : List (Option Action)) (m : List (String × Action)),
      (m.map Prod.fst).Nodup →
      ((l.foldl (fun acc oa =>
        match oa with
        | none => acc
        | some action => mapInsert acc (actionKey action) action) m).map Prod.fst).Nodup by
    exact hgen actions [] (by simp)
  intro l
  induction l with
  | nil => intro m hm; simpa using hm
  | cons oa rest ih =>
    intro m hm
    cases oa with
    | none => exact ih m hm
    | some a => exact ih _ (mapInsert_keys_nodup m _ a hm)

lemma foldl_mapInsert_fresh (m2 : List (String × Action)) :
    ∀ m1 : List (String × Action),
      (∀ p ∈ m2, p.1 = actionKey p.2) →
      (((m1 ++ m2).map Prod.fst).Nodup) →
      (m2.map (fun p => some p.2)).foldl (fun acc oa =>
        match oa with
        | none => acc
        | some action => mapInsert acc (actionKey action) action) m1 = m1 ++ m2 := by
  induction m2 with
  | nil => intro m1 _ _; simp
  | cons p rest ih =>
    intro m1 hinv hnd
    have hpk : p.1 = actionKey p.2 := hinv p (by simp)
    have hfresh : m1.any (fun q => q.1 = actionKey p.2) = false := by
      rw [← hpk]
      by_contra hc
      have hc' : m1.any (fun q => q.1 = p.1) = true := by
        cases hx : m1.any (fun q => q.1 = p.1) with
        | true => rfl
        | false => exact absurd hx hc
      obtain ⟨q, hq, hqk⟩ := List.any_eq_true.1 hc'
      have hq1 : p.1 ∈ m1.map Prod.fst := List.mem_map.2 ⟨q, hq, by simpa using hqk⟩
      rw [List.map_append] at hnd
      have hdisj := (List.nodup_append.1 hnd).2.2
      exact (List.disjoint_left.1 hdisj hq1) (by simp)
    have hstep : mapInsert m1 (actionKey p.2) p.2 = m1 ++ [(actionKey p.2, p.2)] := by
      simp only [mapInsert, hfresh]
      simp
    have hp' : ((actionKey p.2, p.2) : String × Action) = p := by
      rw [← hpk]
    simp only [List.map_cons, List.foldl_cons, hstep, hp']
    rw [ih (m1 ++ [p]) (fun q hq => hinv q (by simp [hq])) (by simpa using hnd)]
    simp

/-- C3 (confirmed). `dedupeActions` is idempotent: re-running the merge over
its own output returns the same list, with the same elements in the same
order — the merge key being `id` when truthy, else the
`category:type:learningKey:deviationRef` template, and later entries
replacing earlier ones in place. -/
theorem dedupeActions_idempotent (actions : List (Option Action)) :
    dedupeActions ((dedupeActions actions).map some) = dedupeActions actions := by
  have hinv := dedupeFold_key_inv actions
  have hnd := dedupeFold_keys_nodup actions
  have h1 : (dedupeActions actions).map some =
      (dedupeFold actions).map (fun p => some p.2) := by
    simp only [dedupeActions, List.map_map]
    rfl
  have h2 : dedupeFold ((dedupeFold actions).map (fun p => some p.2)) = dedupeFold actions := by
    have hfold := foldl_mapInsert_fresh (dedupeFold actions) [] hinv (by simpa using hnd)
    simpa [dedupeFold] using hfold
  calc dedupeActions ((dedupeActions actions).map some)
      = (dedupeFold ((dedupeFold actions).map (fun p => some p.2))).map Prod.snd := by
        rw [← h1]; rfl
    _ = (dedupeFold actions).map Prod.snd := by rw [h2]
    _ = dedupeActions actions := rfl

/-- Hour at which the day bucket of the aggregator starts (`DAY_START_HOUR`). -/
def DAY_START_HOUR : ℕ := 6

/-- Hour at which the night bucket starts (`NIGHT_START_HOUR`). -/
def NIGHT_START_HOUR : ℕ := 22

/-- A history sample `{ts, value}`; `value` is the JavaScript number the
source obtains through `Number(entry.value)`. -/
structure Sample where
  ts : ℤ
  value : JsNum
deriving DecidableEq

/-- The aggregate record returned by `aggregateSeries` inside
`aggregateData`; `none` models `null`. -/
structure SeriesAggregate where
  avg : Option JsNum
  min : Option JsNum
  max : Option JsNum
  last : Option JsNum
  dayAvg : Option JsNum
  nightAvg : Option JsNum
deriving DecidableEq

/-- The all-null aggregate returned for empty or all-non-finite series. -/
def nullAggregate : SeriesAggregate := ⟨none, none, none, none, none, none⟩

/-- `series.map((entry) => Number(entry.value)).filter(Number.isFinite)`:
the finite values of the series, as rationals. -/
def finiteValues (series : List Sample) : List ℚ :=
  (series.map Sample.value).filterMap fun v =>
    match v with
    | JsNum.num q => some q
    | _ => none

/-- `averageNumbers(values)`: filters the finite values and averages them,
returning `null` when none remain. -/
def averageNumbers (values : List JsNum) : Option ℚ :=
  let valid := values.filterMap fun v =>
    match v with
    | JsNum.num q => some q
    | _ => none
  if valid.length = 0 then none
  else some (valid.foldl (· + ·) 0 / valid.length)

/-- One step of the `series.reduce` that finds the sample with the greatest
timestamp (ties keep the earlier sample). -/
def latestStep (latest : Option Sample) (entry : Sample) : Option Sample :=
  match latest with
  | none => some entry
  | some l => if entry.ts > l.ts then some entry else some l

/-- The `last` reduce of `aggregateSeries`: the sample with the greatest
timestamp of the raw (unfiltered) series. -/
def latestSample (series : List Sample) : Option Sample :=
  series.foldl latestStep none

/-- Whether a local hour falls in the day bucket
(`hour >= DAY_START_HOUR && hour < NIGHT_START_HOUR`). -/
def isDayHour (h : ℕ) : Bool :=
  decide (DAY_START_HOUR ≤ h ∧ h < NIGHT_START_HOUR)

/-- The day bucket of the aggregation loop: values (coerced, unfiltered) of
samples whose local hour is a day hour.  `hourOf` stands for
`new Date(entry.ts).getHours()`. -/
def dayValues (hourOf : ℤ → ℕ) (series : List Sample) : List JsNum :=
  (series.filter fun e => isDayHour (hourOf e.ts)).map Sample.value

/-- The night bucket (the `else` branch of the same loop). -/
def nightValues (hourOf : ℤ → ℕ) (series : List Sample) : List JsNum :=
  (series.filter fun e => ! isDayHour (hourOf e.ts)).map Sample.value

/-- `aggregateSeries(series)` from `aggregateData`.  Note that `last` comes
from the raw series (not the finite-filtered values), exactly as in the
source: `last ? Number(last.value) : null`. -/
def aggregateSeries (hourOf : ℤ → ℕ) (series : List Sample) : SeriesAggregate :=
  if series.length = 0 then nullAggregate
  else
    match finiteValues series with
    | [] => nullAggregate
    | q :: qs =>
      { avg := some (JsNum.num ((q :: qs).foldl (· + ·) 0 / ((q :: qs).length : ℚ)))
        min := some (JsNum.num (qs.foldl Min.min q))
        max := some (JsNum.num (qs.foldl Max.max q))
        last := (latestSample series).map Sample.value
        dayAvg := (averageNumbers (dayValues hourOf series)).map JsNum.num
        nightAvg := (averageNumbers (nightValues hourOf series)).map JsNum.num }

/-- An option field is `null` or a finite number. -/
def nullOrFinite : Option JsNum → Bool
  | none => true
  | some v => v.isFinite

lemma aggregateSeries_eq_null (hourOf : ℤ → ℕ) (series : List Sample)
    (h : series.length = 0 ∨ finiteValues series = []) :
    aggregateSeries hourOf series = nullAggregate := by
  rcases h with h | h
  · simp [aggregateSeries, h]
  · by_cases hl : series.length = 0
    · simp [aggregateSeries, hl]
    · simp [aggregateSeries, hl, h]

lemma aggregateSeries_pos (hourOf : ℤ → ℕ) (series : List Sample) (q : ℚ) (qs : List ℚ)
    (hl : ¬ series.length = 0) (hfv : finiteValues series = q :: qs) :
    aggregateSeries hourOf series =
      { avg := some (JsNum.num ((q :: qs).foldl (· + ·) 0 / ((q :: qs).length : ℚ)))
        min := some (JsNum.num (qs.foldl Min.min q))
        max := some (JsNum.num (qs.foldl Max.max q))
        last := (latestSample series).map Sample.value
        dayAvg := (averageNumbers (dayValues hourOf series)).map JsNum.num
        nightAvg := (averageNumbers (nightValues hourOf series)).map JsNum.num } := by
  simp [aggregateSeries, hl, hfv]

lemma nullOrFinite_map_num (o : Option ℚ) : nullOrFinite (o.map JsNum.num) = true := by
  cases o <;> rfl

lemma latestSample_go (rest : List Sample) :
    ∀ (acc : Option Sample) (s : Sample),
      rest.foldl latestStep acc = some s →
      (s ∈ rest ∨ acc = some s) ∧ (∀ t ∈ rest, t.ts ≤ s.ts) ∧
        (∀ u, acc = some u → u.ts ≤ s.ts) := by
  induction rest with
  | nil =>
    intro acc s h
    simp only [List.foldl_nil] at h
    refine ⟨Or.inr h, by simp, fun u hu => ?_⟩
    rw [h] at hu
    cases hu
    rfl
  | cons e rest ih =>
    intro acc s h
    simp only [List.foldl_cons] at h
    obtain ⟨h1, h2, h3⟩ := ih (latestStep acc e) s h
    have hstep : (latestStep acc e = some e ∧ (∀ u, acc = some u → u.ts ≤ e.ts)) ∨
        (∃ l, acc = some l ∧ latestStep acc e = some l ∧ e.ts ≤ l.ts) := by
      cases acc with
      | none => exact Or.inl ⟨rfl, by simp⟩
      | some l =>
        by_cases hlt : e.ts > l.ts
        · refine Or.inl ⟨by simp [latestStep, hlt], fun u hu => ?_⟩
          cases hu
          exact le_of_lt hlt
        · exact Or.inr ⟨l, rfl, by simp [latestStep, hlt], le_of_not_lt hlt⟩
    have hets : e.ts ≤ s.ts := by
      rcases hstep with ⟨hse, _⟩ | ⟨l, _, hsl, hel⟩
      · exact h3 e hse
      · exact le_trans hel (h3 l hsl)
    refine ⟨?_, ?_, ?_⟩
    · rcases h1 with h1 | h1
      · exact Or.inl (List.mem_cons_of_mem e h1)
      · rcases hstep with ⟨hse, _⟩ | ⟨l, hacc, hsl, _⟩
        · rw [hse] at h1
          cases h1
          exact Or.inl (List.mem_cons_self e rest)
        · rw [hsl] at h1
          cases h1
          exact Or.inr hacc
    · intro t ht
      rcases List.mem_cons.1 ht with ht | ht
      · rw [ht]; exact hets
      · exact h2 t ht
    · intro u hu
      rcases hstep with ⟨hse, hle⟩ | ⟨l, hacc, hsl, _⟩
      · exact le_trans (hle u hu) hets
      · rw [hacc] at hu
        cases hu
        exact h3 _ hsl

lemma latestSample_spec (series : List Sample) (s : Sample)
    (h : latestSample series = some s) :
    s ∈ series ∧ ∀ t ∈ series, t.ts ≤ s.ts := by
  obtain ⟨h1, h2, _⟩ := latestSample_go series none s h
  rcases h1 with h1 | h1
  · exact ⟨h1, h2⟩
  · cases h1

/-- C4 (amended). Aggregation of a series never throws (it is a total
function); an empty or all-non-finite series yields the all-null aggregate;
`avg`, `min`, `max`, `dayAvg` and `nightAvg` are always null or finite
(never NaN/Infinity); an empty day or night bucket yields null, never zero;
and `last` is the coerced value of the greatest-timestamp sample of the raw
series — which, unlike the other fields, may be non-finite. -/
theorem aggregateSeries_safe (hourOf : ℤ → ℕ) (series : List Sample) :
    (series.length = 0 ∨ finiteValues series = [] →
      aggregateSeries hourOf series = nullAggregate) ∧
    nullOrFinite (aggregateSeries hourOf series).avg = true ∧
    nullOrFinite (aggregateSeries hourOf series).min = true ∧
    nullOrFinite (aggregateSeries hourOf series).max = true ∧
    nullOrFinite (aggregateSeries hourOf series).dayAvg = true ∧
    nullOrFinite (aggregateSeries hourOf series).nightAvg = true ∧
    (dayValues hourOf series = [] → (aggregateSeries hourOf series).dayAvg = none) ∧
    (nightValues hourOf series = [] → (aggregateSeries hourOf series).nightAvg = none) ∧
    (∀ s, latestSample series = some s → s ∈ series ∧ ∀ t ∈ series, t.ts ≤ s.ts) ∧
    (finiteValues series ≠ [] →
      (aggregateSeries hourOf series).last = (latestSample series).map Sample.value) := by
  have hmain : aggregateSeries hourOf series = nullAggregate ∨
      (¬ series.length = 0 ∧ ∃ q qs, finiteValues series = q :: qs) := by
    by_cases hl : series.length = 0
    · exact Or.inl (aggregateSeries_eq_null hourOf series (Or.inl hl))
    · cases hfv : finiteValues series with
      | nil => exact Or.inl (aggregateSeries_eq_null hourOf series (Or.inr hfv))
      | cons q qs => exact Or.inr ⟨hl, q, qs, rfl⟩
  refine ⟨fun h => aggregateSeries_eq_null hourOf series h, ?_, ?_, ?_, ?_, ?_, ?_, ?_,
    fun s hs => latestSample_spec series s hs, ?_⟩
  · rcases hmain with hnull | ⟨hl, q, qs, hfv⟩
    · simp [hnull, nullAggregate, nullOrFinite]
    · simp [aggregateSeries_pos hourOf series q qs hl hfv, nullOrFinite, JsNum.isFinite]
  · rcases hmain with hnull | ⟨hl, q, qs, hfv⟩
    · simp [hnull, nullAggregate, nullOrFinite]
    · simp [aggregateSeries_pos hourOf series q qs hl hfv, nullOrFinite, JsNum.isFinite]
  · rcases hmain with hnull | ⟨hl, q, qs, hfv⟩
    · simp [hnull, nullAggregate, nullOrFinite]
    · simp [aggregateSeries_pos hourOf series q qs hl hfv, nullOrFinite, JsNum.isFinite]
  · rcases hmain with hnull | ⟨hl, q, qs, hfv⟩
    · simp [hnull, nullAggregate, nullOrFinite]
    · simp [aggregateSeries_pos hourOf series q qs hl hfv, nullOrFinite_map_num]
  · rcases hmain with hnull | ⟨hl, q, qs, hfv⟩
    · simp [hnull, nullAggregate, nullOrFinite]
    · simp [aggregateSeries_pos hourOf series q qs hl hfv, nullOrFinite_map_num]
  · intro hday
    rcases hmain with hnull | ⟨hl, q, qs, hfv⟩
    · simp [hnull, nullAggregate]
    · simp [aggregateSeries_pos hourOf series q qs hl hfv, hday, averageNumbers]
  · intro hnight
    rcases hmain with hnull | ⟨hl, q, qs, hfv⟩
    · simp [hnull, nullAggregate]
    · simp [aggregateSeries_pos hourOf series q qs hl hfv, hnight, averageNumbers]
  · intro hne
    have hl : ¬ series.length = 0 := by
      intro h0
      exact hne (by simp [finiteValues, List.length_eq_zero.1 h0])
    cases hfv : finiteValues series with
    | nil => exact absurd hfv hne
    | cons q qs => simp [aggregateSeries_pos hourOf series q qs hl hfv]

/-- Witness for `aggregateSeries_safe`: the empty series yields the all-null
aggregate; a single night sample leaves the day bucket null; `last` of a
single-sample series is that sample's value. -/
theorem aggregateSeries_safe_witness :
    aggregateSeries (fun _ => 0) [] = nullAggregate ∧
    (aggregateSeries (fun _ => 0) [⟨0, JsNum.num 5⟩]).dayAvg = none ∧
    (aggregateSeries (fun _ => 0) [⟨0, JsNum.num 5⟩]).last = some (JsNum.num 5) := by
  refine ⟨(aggregateSeries_safe (fun _ => 0) []).1 (Or.inl rfl), ?_, ?_⟩
  · exact (aggregateSeries_safe (fun _ => 0) [⟨0, JsNum.num 5⟩]).2.2.2.2.2.2.1 (by decide)
  · have h := (aggregateSeries_safe (fun _ => 0) [⟨0, JsNum.num 5⟩]).2.2.2.2.2.2.2.2.2
      (by decide)
    rw [h]
    decide

/-- A series whose greatest-timestamp sample has a non-finite value while an
earlier sample is finite. -/
def nanLastSeries : List Sample := [⟨0, JsNum.num 5⟩, ⟨1, JsNum.nan⟩]

/-- Counterexample to C4 as stated: the aggregate of `nanLastSeries` has
`last = NaN` — the `last` sample is taken from the raw series, not from the
finite-filtered values, so a returned field *can* be NaN. -/
theorem aggregateSeries_last_nan :
    (aggregateSeries (fun _ => 0) nanLastSeries).last = some JsNum.nan ∧
    JsNum.isFinite JsNum.nan = false := by
  exact ⟨rfl, rfl⟩

/-- State of the run scheduler: the `this.running` lock plus counters for
started executions and skipped (rejected) triggers. -/
structure RunState where
  running : Bool
  executions : ℕ
  skips : ℕ
deriving DecidableEq

/-- Events of the single-threaded cooperative schedule.  `trigger` is a call
of `runAnalysisWithLock` (equivalently the `control.run` branch of
`onStateChange`) up to the first suspension inside `runAnalysis`; `finish`
is the `finally` block of that call, with `threw` recording whether
`runAnalysis` resolved or threw. -/
inductive RunEvent where
  | trigger
  | finish (threw : Bool)

/-- One scheduler step.  A trigger while `running` logs a warning and
returns without invoking `runAnalysis` (never queues); otherwise it sets the
lock and starts an execution.  `finish` clears the lock unconditionally —
the `finally` runs whether or not `runAnalysis` threw. -/
def runStep (s : RunState) : RunEvent → RunState
  | .trigger =>
    if s.running then { s with skips := s.skips + 1 }
    else { s with running := true, executions := s.executions + 1 }
  | .finish _ => { s with running := false }

/-- A sequence of scheduler events. -/
def runTrace (events : List RunEvent) (s : RunState) : RunState :=
  events.foldl runStep s

/-- C7 (confirmed). While the lock is held a trigger only increments the
skip counter (rejected, never queued, no execution); the lock is set by an
accepted trigger; `finish` clears the lock whether or not the run threw;
and two triggers issued while the first run is pending yield exactly one
execution and one logged skip, with the lock released afterwards. -/
theorem run_lock_single_execution (s : RunState) (threw : Bool) :
    (s.running = true → runStep s .trigger = { s with skips := s.skips + 1 }) ∧
    (s.running = false →
      runStep s .trigger =
        { running := true, executions := s.executions + 1, skips := s.skips }) ∧
    (runStep s (.finish threw)).running = false ∧
    runTrace [.trigger, .trigger, .finish threw] ⟨false, 0, 0⟩ =
      ⟨false, 1, 1⟩ := by
  refine ⟨fun h => by simp [runStep, h], fun h => by simp [runStep, h], by simp [runStep], ?_⟩
  simp [runTrace, runStep]

/-- Witness for `run_lock_single_execution`: both hypothesised parts at a
concrete state. -/
theorem run_lock_single_execution_witness :
    runStep ⟨true, 1, 0⟩ .trigger = ⟨true, 1, 1⟩ ∧
    runStep ⟨false, 0, 0⟩ .trigger = ⟨true, 1, 0⟩ := by
  exact ⟨(run_lock_single_execution ⟨true, 1, 0⟩ false).1 rfl,
    (run_lock_single_execution ⟨false, 0, 0⟩ false).2.1 rfl⟩

/-- The calendar date parts of "now" in the configured timezone, as produced
by `getDatePartsInTimeZone` (or the local-`Date` fallback). -/
structure DateParts where
  year : ℕ
  month : ℕ
  day : ℕ
deriving DecidableEq

/-- `String(n).padStart(2, '0')`. -/
def padTwo (s : String) : String :=
  if s.length ≥ 2 then s else if s.length = 1 then "0" ++ s else "00"

/-- `formatDateStamp(date, timeZone)`: `YYYY-MM-DD` from the zone-local date
parts. -/
def formatDateStamp (parts : DateParts) : String :=
  toString parts.year ++ "-" ++ padTwo (toString parts.month) ++ "-" ++
    padTwo (toString parts.day)

/-- The environment of one `runDailyReportIfDue` call: configuration flags,
the zone-local date of now, the persisted `report.dailyLastSent` value, the
report text built by `buildDailyReport` (`none` for null), and whether the
Telegram send resolves. -/
structure DailyReportInputs where
  enabled : Bool
  telegramEnabled : Bool
  today : DateParts
  lastSent : Option String
  report : Option String
  sendOk : Bool
deriving DecidableEq

/-- Observable outcome of one `runDailyReportIfDue` call: number of reports
delivered and the resulting `report.dailyLastSent` value. -/
structure DailyReportOutcome where
  sends : ℕ
  lastSent : Option String
deriving DecidableEq

/-- `runDailyReportIfDue()`.  Skips when the feature or Telegram is
disabled, when `dailyLastSent` already equals today's stamp, or when the
report is falsy; otherwise it sends, and on success persists today's stamp
(a send that throws is caught and leaves the stamp unchanged). -/
def runDailyReportIfDue (inp : DailyReportInputs) : DailyReportOutcome :=
  if ¬ inp.enabled then ⟨0, inp.lastSent⟩
  else if ¬ inp.telegramEnabled then ⟨0, inp.lastSent⟩
  else if inp.lastSent = some (formatDateStamp inp.today) then ⟨0, inp.lastSent⟩
  else if strTruthy inp.report = false then ⟨0, inp.lastSent⟩
  else if inp.sendOk then ⟨1, some (formatDateStamp inp.today)⟩
  else ⟨0, inp.lastSent⟩

lemma runDailyReportIfDue_already_sent (inp : DailyReportInputs)
    (h : inp.lastSent = some (formatDateStamp inp.today)) :
    runDailyReportIfDue inp = ⟨0, inp.lastSent⟩ := by
  unfold runDailyReportIfDue
  split_ifs
  all_goals simp_all

lemma runDailyReportIfDue_sends_le_one (inp : DailyReportInputs) :
    (runDailyReportIfDue inp).sends ≤ 1 := by
  unfold runDailyReportIfDue
  split_ifs <;> simp

lemma runDailyReportIfDue_sent_stamp (inp : DailyReportInputs)
    (h : (runDailyReportIfDue inp).sends = 1) :
    inp.sendOk = true ∧
      (runDailyReportIfDue inp).lastSent = some (formatDateStamp inp.today) := by
  unfold runDailyReportIfDue at h ⊢
  split_ifs at h ⊢ <;> simp_all

/-- C6 (confirmed). The daily report is delivered at most once per
zone-local calendar day: a call sends at most one report; if the persisted
stamp already equals today's zone-local date stamp nothing is sent and the
stamp is unchanged; a successful send updates the stamp to today's stamp;
and a second call on the same zone-local day, observing the stamp left by
the first, brings the total to at most one delivery. -/
theorem daily_report_once_per_day (inp inp2 : DailyReportInputs) :
    (runDailyReportIfDue inp).sends ≤ 1 ∧
    (inp.lastSent = some (formatDateStamp inp.today) →
      runDailyReportIfDue inp = ⟨0, inp.lastSent⟩) ∧
    ((runDailyReportIfDue inp).sends = 1 →
      inp.sendOk = true ∧
        (runDailyReportIfDue inp).lastSent = some (formatDateStamp inp.today)) ∧
    (inp2.today = inp.today → inp2.lastSent = (runDailyReportIfDue inp).lastSent →
      (runDailyReportIfDue inp).sends + (runDailyReportIfDue inp2).sends ≤ 1) := by
  refine ⟨runDailyReportIfDue_sends_le_one inp,
    fun h => runDailyReportIfDue_already_sent inp h,
    fun h => runDailyReportIfDue_sent_stamp inp h, ?_⟩
  intro hday hstamp
  have h1 := runDailyReportIfDue_sends_le_one inp
  have h2 := runDailyReportIfDue_sends_le_one inp2
  by_cases hs : (runDailyReportIfDue inp).sends = 1
  · obtain ⟨_, hlast⟩ := runDailyReportIfDue_sent_stamp inp hs
    have : inp2.lastSent = some (formatDateStamp inp2.today) := by
      rw [hstamp, hlast, hday]
    rw [runDailyReportIfDue_already_sent inp2 this]
    simpa using h1
  · omega

/-- Witness for `daily_report_once_per_day`: on 2024-05-01 with the stamp
already set, a repeat trigger does not resend; rolling to 2024-05-02 with
the old stamp, two chained calls deliver exactly once in total. -/
theorem daily_report_once_per_day_witness :
    runDailyReportIfDue
        ⟨true, true, ⟨2024, 5, 1⟩, some "2024-05-01", some "Report", true⟩ =
      ⟨0, some "2024-05-01"⟩ ∧
    (runDailyReportIfDue
        ⟨true, true, ⟨2024, 5, 2⟩, some "2024-05-01", some "Report", true⟩).sends +
      (runDailyReportIfDue
        ⟨true, true, ⟨2024, 5, 2⟩, some "2024-05-02", some "Report", true⟩).sends ≤ 1 := by
  constructor
  · exact (daily_report_once_per_day
      ⟨true, true, ⟨2024, 5, 1⟩, some "2024-05-01", some "Report", true⟩
      ⟨true, true, ⟨2024, 5, 1⟩, some "2024-05-01", some "Report", true⟩).2.1 (by decide)
  · exact (daily_report_once_per_day
      ⟨true, true, ⟨2024, 5, 2⟩, some "2024-05-01", some "Report", true⟩
      ⟨true, true, ⟨2024, 5, 2⟩, some "2024-05-02", some "Report", true⟩).2.2.2
      (by decide) (by decide)

/-- A deviation record `{category, type, description, severity}`. -/
structure Deviation where
  category : String
  type : String
  description : String
  severity : String
deriving DecidableEq

/-- The consumption-peak deviation pushed by `buildContext`. -/
def consumptionPeakDeviation : Deviation :=
  ⟨"energy", "peak", "House consumption significantly above historical night baseline.", "warn"⟩

/-- The night-water deviation pushed by `buildContext`. -/
def nightWaterDeviation : Deviation :=
  ⟨"water", "night", "Night water usage above historical baseline.", "warn"⟩

/-- The battery-anomaly deviation pushed by `buildContext`. -/
def batteryAnomalyDeviation : Deviation :=
  ⟨"energy", "anomaly", "Battery SOC below historical average.", "info"⟩

/-- A live context entry `{role, value}` as assembled into
`context.live.energy` / `context.live.water`. -/
structure LiveEntry where
  role : String
  value : JsNum
deriving DecidableEq

/-- `sumLiveRole(entries, role)`: sum of the finite values with the given
role, or null when none exist. -/
def sumLiveRole (entries : List LiveEntry) (role : String) : Option ℚ :=
  let values := (entries.filter fun e => e.role = role).filterMap fun e =>
    match e.value with
    | JsNum.num q => some q
    | _ => none
  if values.length = 0 then none else some (values.foldl (· + ·) 0)

/-- `sumLiveRoles(entries, roles)`: same over a set of roles. -/
def sumLiveRoles (entries : List LiveEntry) (roles : List String) : Option ℚ :=
  let values := (entries.filter fun e => roles.contains e.role).filterMap fun e =>
    match e.value with
    | JsNum.num q => some q
    | _ => none
  if values.length = 0 then none else some (values.foldl (· + ·) 0)

/-- JavaScript truthiness of a number. -/
def jsNumTruthy : JsNum → Bool
  | .num q => q ≠ 0
  | .nan => false
  | .posInf => true
  | .negInf => true

/-- JavaScript `q > v` for finite `q` against an arbitrary number `v`. -/
def jsGtNum (q : ℚ) : JsNum → Bool
  | .num b => decide (q > b)
  | .nan => false
  | .posInf => false
  | .negInf => true

/-- The history baselines consulted by the deviation block of
`buildContext` (`aggregate?.nightAvg ?? null` etc.), each null or a number. -/
structure Baselines where
  houseConsumptionNightAvg : Option JsNum
  waterNightAvg : Option JsNum
  batterySocAvg : Option JsNum
deriving DecidableEq

/-- The consumption-peak check (`buildContext` lines 1313–1324): both the
live consumption and the night-average baseline must be finite and the live
value must exceed 1.5 × the baseline. -/
def consumptionPeakCheck (liveHouseConsumption : Option ℚ) (nightAvg : Option JsNum) :
    List Deviation :=
  match liveHouseConsumption, nightAvg with
  | some q, some (JsNum.num nb) =>
    if q > 1.5 * nb then [consumptionPeakDeviation] else []
  | _, _ => []

/-- The night-water check (lines 1331–1343): note the baseline is tested
for truthiness, not finiteness. -/
def nightWaterCheck (isNight : Bool) (liveWaterUsage : Option ℚ) (nightAvg : Option JsNum) :
    List Deviation :=
  match liveWaterUsage, nightAvg with
  | some q, some v =>
    if isNight && jsNumTruthy v && jsGtNum q v then [nightWaterDeviation] else []
  | _, _ => []

/-- The battery-anomaly check (lines 1347–1358). -/
def batteryAnomalyCheck (liveBatterySoc : Option ℚ) (avg : Option JsNum) : List Deviation :=
  match liveBatterySoc, avg with
  | some q, some (JsNum.num av) =>
    if q < av - 10 then [batteryAnomalyDeviation] else []
  | _, _ => []

/-- The deviation block of `buildContext` (lines 1309–1360): the three
independent checks pushed in order.  `nowHour` stands for
`new Date().getHours()`. -/
def buildHistoryDeviations (nowHour : ℕ) (liveEnergy liveWater : List LiveEntry)
    (b : Baselines) : List Deviation :=
  consumptionPeakCheck (sumLiveRole liveEnergy "houseConsumption")
      b.houseConsumptionNightAvg ++
    nightWaterCheck (decide (nowHour < DAY_START_HOUR ∨ NIGHT_START_HOUR ≤ nowHour))
      (sumLiveRoles liveWater ["waterFlow", "waterTotal", "waterConsumption"])
      b.waterNightAvg ++
    batteryAnomalyCheck (sumLiveRole liveEnergy "batterySoc") b.batterySocAvg

lemma mem_consumptionPeakCheck (l : Option ℚ) (n : Option JsNum) :
    consumptionPeakDeviation ∈ consumptionPeakCheck l n ↔
      ∃ q nb, l = some q ∧ n = some (JsNum.num nb) ∧ q > 1.5 * nb := by
  cases l with
  | none => simp [consumptionPeakCheck]
  | some q =>
    cases n with
    | none => simp [consumptionPeakCheck]
    | some v =>
      cases v with
      | num nb =>
        by_cases hq : q > 1.5 * nb <;> simp [consumptionPeakCheck, hq]
      | nan => simp [consumptionPeakCheck]
      | posInf => simp [consumptionPeakCheck]
      | negInf => simp [consumptionPeakCheck]

lemma peak_not_mem_nightWaterCheck (i : Bool) (l : Option ℚ) (n : Option JsNum) :
    consumptionPeakDeviation ∉ nightWaterCheck i l n := by
  cases l with
  | none => simp [nightWaterCheck]
  | some q =>
    cases n with
    | none => simp [nightWaterCheck]
    | some v =>
      simp only [nightWaterCheck]
      split <;> simp [consumptionPeakDeviation, nightWaterDeviation]

lemma peak_not_mem_batteryAnomalyCheck (l : Option ℚ) (n : Option JsNum) :
    consumptionPeakDeviation ∉ batteryAnomalyCheck l n := by
  cases l with
  | none => simp [batteryAnomalyCheck]
  | some q =>
    cases n with
    | none => simp [batteryAnomalyCheck]
    | some v =>
      cases v with
      | num av =>
        simp only [batteryAnomalyCheck]
        split <;> simp [consumptionPeakDeviation, batteryAnomalyDeviation]
      | nan => simp [batteryAnomalyCheck]
      | posInf => simp [batteryAnomalyCheck]
      | negInf => simp [batteryAnomalyCheck]

lemma filter_ne_peak_consumptionPeakCheck (l : Option ℚ) (n : Option JsNum) :
    (consumptionPeakCheck l n).filter (fun d => d ≠ consumptionPeakDeviation) = [] := by
  cases l with
  | none => simp [consumptionPeakCheck]
  | some q =>
    cases n with
    | none => simp [consumptionPeakCheck]
    | some v =>
      cases v with
      | num nb =>
        simp only [consumptionPeakCheck]
        split <;> simp
      | nan => simp [consumptionPeakCheck]
      | posInf => simp [consumptionPeakCheck]
      | negInf => simp [consumptionPeakCheck]

lemma filter_ne_peak_of_not_mem {l : List Deviation}
    (h : consumptionPeakDeviation ∉ l) :
    l.filter (fun d => d ≠ consumptionPeakDeviation) = l := by
  rw [List.filter_eq_self]
  intro a ha
  by_cases hc : a = consumptionPeakDeviation
  · exact absurd (hc ▸ ha) h
  · simp [hc]

/-- C8 (confirmed). The consumption-peak deviation is emitted iff both the
live house consumption and the historical night-average baseline are finite
and the live value exceeds 1.5 × the baseline; when either value is missing
the check is silently skipped (no deviation, no error), and the night-water
and battery checks are unaffected by the house-consumption baseline. -/
theorem consumption_peak_deviation_iff (nowHour : ℕ) (liveEnergy liveWater : List LiveEntry)
    (b : Baselines) :
    (consumptionPeakDeviation ∈ buildHistoryDeviations nowHour liveEnergy liveWater b ↔
      ∃ q nb, sumLiveRole liveEnergy "houseConsumption" = some q ∧
        b.houseConsumptionNightAvg = some (JsNum.num nb) ∧ q > 1.5 * nb) ∧
    (∀ b2 : Baselines, b2.waterNightAvg = b.waterNightAvg →
      b2.batterySocAvg = b.batterySocAvg →
      (buildHistoryDeviations nowHour liveEnergy liveWater b2).filter
          (fun d => d ≠ consumptionPeakDeviation) =
        (buildHistoryDeviations nowHour liveEnergy liveWater b).filter
          (fun d => d ≠ consumptionPeakDeviation)) := by
  constructor
  · rw [buildHistoryDeviations]
    simp only [List.mem_append]
    rw [← mem_consumptionPeakCheck (sumLiveRole liveEnergy "houseConsumption")
      b.houseConsumptionNightAvg]
    constructor
    · rintro ((h | h) | h)
      · exact h
      · exact absurd h (peak_not_mem_nightWaterCheck _ _ _)
      · exact absurd h (peak_not_mem_batteryAnomalyCheck _ _)
    · exact fun h => Or.inl (Or.inl h)
  · intro b2 hw hb
    simp only [buildHistoryDeviations, List.filter_append]
    rw [filter_ne_peak_consumptionPeakCheck, filter_ne_peak_consumptionPeakCheck,
      filter_ne_peak_of_not_mem (peak_not_mem_nightWaterCheck _ _ _),
      filter_ne_peak_of_not_mem (peak_not_mem_nightWaterCheck _ _ _),
      filter_ne_peak_of_not_mem (peak_not_mem_batteryAnomalyCheck _ _),
      filter_ne_peak_of_not_mem (peak_not_mem_batteryAnomalyCheck _ _),
      hw, hb]

/-- Witness for `consumption_peak_deviation_iff`: live house consumption 400
against a night baseline of 200 fires the peak deviation; with the baseline
missing the peak is absent while the battery check still fires. -/
theorem consumption_peak_deviation_iff_witness :
    consumptionPeakDeviation ∈
      buildHistoryDeviations 12 [⟨"houseConsumption", JsNum.num 400⟩] []
        ⟨some (JsNum.num 200), none, none⟩ ∧
    consumptionPeakDeviation ∉
      buildHistoryDeviations 12
        [⟨"houseConsumption", JsNum.num 400⟩, ⟨"batterySoc", JsNum.num 10⟩] []
        ⟨none, none, some (JsNum.num 50)⟩ ∧
    batteryAnomalyDeviation ∈
      buildHistoryDeviations 12
        [⟨"houseConsumption", JsNum.num 400⟩, ⟨"batterySoc", JsNum.num 10⟩] []
        ⟨none, none, some (JsNum.num 50)⟩ := by
  refine ⟨?_, ?_, ?_⟩
  · exact (consumption_peak_deviation_iff 12 [⟨"houseConsumption", JsNum.num 400⟩] []
      ⟨some (JsNum.num 200), none, none⟩).1.mpr
      ⟨400, 200, by norm_num [sumLiveRole, List.filterMap_cons, List.filter_cons,
        List.filter_nil], rfl, by norm_num⟩
  · intro hmem
    obtain ⟨q, nb, _, hnb, _⟩ := (consumption_peak_deviation_iff 12
      [⟨"houseConsumption", JsNum.num 400⟩, ⟨"batterySoc", JsNum.num 10⟩] []
      ⟨none, none, some (JsNum.num 50)⟩).1.mp hmem
    exact Option.noConfusion hnb
  · simp only [buildHistoryDeviations, List.mem_append]
    refine Or.inr ?_
    have hsum : sumLiveRole
        [⟨"houseConsumption", JsNum.num 400⟩, ⟨"batterySoc", JsNum.num 10⟩]
        "batterySoc" = some 10 := by
      have hne : ¬ ("houseConsumption" : String) = "batterySoc" := by decide
      norm_num [sumLiveRole, List.filterMap_cons, List.filter_cons, List.filter_nil, hne]
    rw [hsum]
    norm_num [batteryAnomalyCheck]

/-- A live temperature entry as assembled into `context.live.temperature`
(`{role, temperature}`; the temperature field is read without `Number`
coercion). -/
structure TempEntry where
  role : String
  temperature : Option JsNum
deriving DecidableEq

/-- `getOutsideTemperature(entries)`: the finite `temperature` of the first
`outside` entry, else null. -/
def getOutsideTemperature (entries : List TempEntry) : Option ℚ :=
  match entries.find? (fun e => e.role = "outside") with
  | some e =>
    match e.temperature with
    | some (JsNum.num q) => some q
    | _ => none
  | none => none

/-- `getAverageRoomTemperature(entries)`: average of the finite `room`
temperatures, else null. -/
def getAverageRoomTemperature (entries : List TempEntry) : Option ℚ :=
  let temps := (entries.filter fun e =>
    e.role = "room" && (match e.temperature with
      | some v => v.isFinite
      | none => false)).filterMap fun e =>
    match e.temperature with
    | some (JsNum.num q) => some q
    | _ => none
  if temps.length = 0 then none
  else some (temps.foldl (· + ·) 0 / (temps.length : ℚ))

/-- `getLiveRoleValue(entries, role)`: the first finite value with the given
role, else null. -/
def getLiveRoleValue (entries : List LiveEntry) (role : String) : Option ℚ :=
  match entries.find? (fun e => e.role = role && e.value.isFinite) with
  | some e =>
    match e.value with
    | JsNum.num q => some q
    | _ => none
  | none => none

/-- The energy summary of `buildEnergySummary` / `buildEmptySummary`; every
field is null or a finite number. -/
structure EnergySummary where
  houseConsumption : Option ℚ := none
  gridPower : Option ℚ := none
  batterySoc : Option ℚ := none
  batteryPower : Option ℚ := none
  pvPower : Option ℚ := none
  pvDailyEnergy : Option ℚ := none
  waterConsumption : Option ℚ := none
  wallboxPower : Option ℚ := none
deriving DecidableEq

/-- `buildEmptySummary()`. -/
def buildEmptySummary : EnergySummary := {}

/-- `buildEnergySummary(energyEntries)`.  The local `sumRole`, `sumRoles`
and `firstRole` helpers have exactly the bodies of `sumLiveRole`,
`sumLiveRoles` and `getLiveRoleValue`. -/
def buildEnergySummary (energyEntries : List LiveEntry) : EnergySummary :=
  { houseConsumption := sumLiveRole energyEntries "houseConsumption"
    gridPower := sumLiveRole energyEntries "gridPower"
    batterySoc := getLiveRoleValue energyEntries "batterySoc"
    batteryPower := sumLiveRole energyEntries "batteryPower"
    pvPower := sumLiveRole energyEntries "pvPower"
    pvDailyEnergy := sumLiveRole energyEntries "pvDailyEnergy"
    waterConsumption := sumLiveRoles energyEntries ["waterTotal", "waterFlow", "waterConsumption"]
    wallboxPower := sumLiveRole energyEntries "wallbox" }

/-- The `roleToSummaryField` lookup of `getMissingEnergyValues`, returning
the summary value for a mapped role. -/
def summaryFieldForRole (s : EnergySummary) (role : String) : Option (Option ℚ) :=
  if role = "houseConsumption" then some s.houseConsumption
  else if role = "gridPower" then some s.gridPower
  else if role = "batterySoc" then some s.batterySoc
  else if role = "batteryPower" then some s.batteryPower
  else if role = "pvPower" then some s.pvPower
  else if role = "pvDailyEnergy" then some s.pvDailyEnergy
  else if role = "waterTotal" ∨ role = "waterFlow" ∨ role = "waterConsumption" then
    some s.waterConsumption
  else if role = "wallbox" then some s.wallboxPower
  else none

/-- `Number(v)` of a null-or-finite summary value: `Number(null)` is `0`. -/
def numberOfNullable (v : Option ℚ) : JsNum :=
  match v with
  | none => JsNum.num 0
  | some q => JsNum.num q

/-- `getMissingEnergyValues(energyEntries, energySummary)`: iterates the
mapped roles (a `Set`, insertion order of first occurrence) and reports the
ones whose summary field does not coerce to a finite number. -/
def getMissingEnergyValues (energyEntries : List LiveEntry) (s : EnergySummary) :
    List String :=
  let roles := energyEntries.foldl
    (fun (acc : List String) e =>
      if (summaryFieldForRole s e.role).isSome ∧ e.role ≠ "" then
        (if acc.contains e.role then acc else acc ++ [e.role])
      else acc) []
  roles.filter fun role =>
    match summaryFieldForRole s role with
    | some v => ! (numberOfNullable v).isFinite
    | none => false

/-- The analysis context as far as the action synthesizers read it:
timestamp, summary, the live sections and the history deviations. -/
structure Context where
  timestamp : String
  summary : EnergySummary
  liveEnergy : List LiveEntry
  liveWater : List LiveEntry
  liveTemperature : List TempEntry
  deviations : List Deviation
deriving DecidableEq

/-- `buildActionContext(context)`.  `now` stands for the
`new Date().toISOString()` fallback of the timestamp. -/
def buildActionContext (now : String) (context : Context) : ActionCtx :=
  { timestamp := if context.timestamp = "" then now else context.timestamp
    batterySoc := context.summary.batterySoc
    houseConsumption := context.summary.houseConsumption
    outsideTemp := getOutsideTemperature context.liveTemperature
    pvPower := context.summary.pvPower }

/-- JavaScript number formatting for the template-literal reasons of the
live rules; exact for integers, and the claims never depend on the
formatting of non-integral values. -/
def jsNumToString (q : ℚ) : String :=
  if q.den = 1 then toString q.num else toString q.num ++ "/" ++ toString q.den

/-- `${baseId}-${index}` action ids. -/
def mkActionId (baseId index : ℕ) : String :=
  toString baseId ++ "-" ++ toString index

/-- `buildLiveRuleActions(context)` (lines 2383–2467): the three
deterministic live rules, with ids numbered in emission order.
`gridPowerThreshold` is `Number(config.energy?.gridPowerThreshold)` when
finite (else the 500 default applies) and `baseId` is `Date.now()`. -/
def buildLiveRuleActions (gridPowerThreshold : Option ℚ) (baseId : ℕ) (now : String)
    (context : Context) : List Action :=
  let batterySoc : Option ℚ :=
    match context.summary.batterySoc with
    | some q => some q
    | none => getLiveRoleValue context.liveEnergy "batterySoc"
  let outsideTemp := getOutsideTemperature context.liveTemperature
  let gridPower : Option ℚ :=
    match context.summary.gridPower with
    | some q => some q
    | none => sumLiveRole context.liveEnergy "gridPower"
  let pvPower : Option ℚ :=
    match context.summary.pvPower with
    | some q => some q
    | none => sumLiveRole context.liveEnergy "pvPower"
  let gridThreshold : ℚ := gridPowerThreshold.getD 500
  let actionContext := buildActionContext now context
  let batteryFires : Bool :=
    match batterySoc with
    | some q => decide (q < 20)
    | none => false
  let frostFires : Bool :=
    match outsideTemp with
    | some t => decide (t < 0)
    | none => false
  let batteryList : List Action :=
    match batterySoc with
    | some q =>
      if q < 20 then
        [{ id := some (mkActionId baseId 1)
           category := some "energy"
           type := some "protect_battery"
           priority := some "high"
           title := some "Batterie schützen"
           description :=
             some "Batterie-SOC unter 20 %. Entladung reduzieren oder Reserve schützen."
           reason := some ("Live-Regel: Batterie-SOC " ++ jsNumToString q ++ "% < 20%.")
           context := some actionContext
           requiresApproval := some false
           status := some "proposed"
           decision := none
           timestamps := some (buildActionTimestamps now emptyTimestamps)
           source := some "live-rule"
           learningKey := some "battery_low"
           deviationRef := some "live:protect_battery" }]
      else []
    | none => []
  let frostList : List Action :=
    match outsideTemp with
    | some t =>
      if t < 0 then
        [{ id := some (mkActionId baseId (if batteryFires then 2 else 1))
           category := some "heating"
           type := some "check_frost_protection"
           priority := some "high"
           title := some "Frostschutz prüfen"
           description :=
             some "Außentemperatur unter 0 °C. Frostschutz und Heizkreise prüfen."
           reason := some ("Live-Regel: Außentemperatur " ++ jsNumToString t ++ " °C < 0 °C.")
           context := some actionContext
           requiresApproval := some false
           status := some "proposed"
           decision := none
           timestamps := some (buildActionTimestamps now emptyTimestamps)
           source := some "live-rule"
           learningKey := some "frost_risk"
           deviationRef := some "live:check_frost_protection" }]
      else []
    | none => []
  let gridList : List Action :=
    match gridPower, pvPower with
    | some g, some p =>
      if g > gridThreshold ∧ p = 0 then
        [{ id := some (mkActionId baseId
             (1 + (if batteryFires then 1 else 0) + (if frostFires then 1 else 0)))
           category := some "energy"
           type := some "reduce_load"
           priority := some "medium"
           title := some "Last reduzieren"
           description :=
             some "Hoher Netzbezug ohne PV-Erzeugung. Verbraucher prüfen und reduzieren."
           reason := some ("Live-Regel: Netzbezug " ++ jsNumToString g ++ " W > " ++
             jsNumToString gridThreshold ++ " W bei PV 0.")
           context := some actionContext
           requiresApproval := some true
           status := some "proposed"
           decision := none
           timestamps := some (buildActionTimestamps now emptyTimestamps)
           source := some "live-rule"
           learningKey := some "grid_peak"
           deviationRef := some "live:reduce_load" }]
      else []
    | _, _ => []
  batteryList ++ frostList ++ gridList

/-- `normalizeActionCategory(category)`: lowercased, restricted to the five
categories, with `battery` and everything unknown mapped to `energy`. -/
def normalizeActionCategory (category : Option String) : String :=
  let normalized := toLowerString (strOr category "")
  if ["energy", "heating", "water", "pv", "safety"].contains normalized then normalized
  else if normalized = "battery" then "energy"
  else "energy"

/-- `mapDeviationPriority(severity)`. -/
def mapDeviationPriority (severity : String) : String :=
  if severity = "critical" then "high"
  else if severity = "warn" then "medium"
  else "low"

/-- The template returned by `mapDeviationToAction` (the mappings never set
`target`/`value`/`unit`, and never return null thanks to the fallback). -/
structure ActionMapping where
  category : String
  type : String
  priority : String
  title : String
  description : String
  reason : String
  requiresApproval : Bool
  learningKey : String
deriving DecidableEq

/-- `mapDeviationToAction(deviation, context)` (lines 2469–2571). -/
def mapDeviationToAction (deviation : Deviation) (context : Context) : ActionMapping :=
  let batterySoc := context.summary.batterySoc
  let outsideTemp := getOutsideTemperature context.liveTemperature
  let insideTemp := getAverageRoomTemperature context.liveTemperature
  let deviationDescription :=
    if deviation.description = "" then "Abweichung erkannt." else deviation.description
  let batteryLow : Bool :=
    match batterySoc with
    | some q => decide (q < 20)
    | none => false
  let heatingInefficient : Bool :=
    match outsideTemp, insideTemp with
    | some o, some i => decide (o > i)
    | _, _ => false
  if deviation.category = "energy" ∧ deviation.type = "night" then
    ⟨"energy", "reduce_standby", "medium", "Standby-Verbrauch reduzieren",
      "Erhöhter Nachtverbrauch erkannt. Standby-Verbraucher prüfen und reduzieren.",
      deviationDescription, true, "energy_night"⟩
  else if deviation.category = "energy" ∧ deviation.type = "peak" then
    ⟨"energy", "avoid_peak", "high", "Lastspitzen vermeiden",
      "Hohe Lastspitze erkannt. Flexible Verbraucher zeitlich verschieben.",
      deviationDescription, true, "energy_peak"⟩
  else if deviation.type = "anomaly" ∧ batteryLow = true then
    ⟨"energy", "protect_battery", "high", "Batterie schützen",
      "Batterie-SOC unter 20 %. Entladung reduzieren oder Reserve schützen.",
      deviationDescription, true, "battery_low"⟩
  else if deviation.category = "water" ∧ deviation.type = "night" then
    ⟨"water", "check_leak", "high", "Mögliche Wasserleckage prüfen",
      "Nächtlicher Wasserverbrauch über Baseline. Leitungen und Geräte prüfen.",
      deviationDescription, true, "water_night"⟩
  else if deviation.category = "heating" ∧ deviation.type = "anomaly" ∧
      heatingInefficient = true then
    ⟨"heating", "check_heating_control", "medium", "Heizungsregelung prüfen",
      "Außentemperatur höher als Innentemperatur. Heizungsregelung prüfen.",
      deviationDescription, true, "heating_inefficiency"⟩
  else
    ⟨normalizeActionCategory (some deviation.category), "inspect_deviation",
      mapDeviationPriority deviation.severity, "Abweichung prüfen",
      "Eine Abweichung wurde erkannt. Bitte Ursache prüfen.",
      deviationDescription, true, "deviation_generic"⟩

/-- `isDuplicateAction(action, existing)`. -/
def isDuplicateAction (action : Action) (existing : List Action) : Bool :=
  existing.any fun entry =>
    entry.id = action.id ||
      (entry.category = action.category && entry.type = action.type &&
        entry.learningKey = action.learningKey && entry.deviationRef = action.deviationRef)

/-- `buildDeviationActions(context)` (lines 2332–2381).  The context
deviations carry no `id`, so the `deviationRef` falls back to the
description, then to `category:type`.  `index++` runs for every deviation,
also for the ones dropped as duplicates. -/
def buildDeviationActions (baseId : ℕ) (now : String) (context : Context) : List Action :=
  let actionContext := buildActionContext now context
  (context.deviations.foldl
    (fun (acc : List Action × ℕ) deviation =>
      let mapping := mapDeviationToAction deviation context
      let deviationRef :=
        if deviation.description ≠ "" then deviation.description
        else strOr (some deviation.category) "unknown" ++ ":" ++
          strOr (some deviation.type) "unknown"
      let action : Action :=
        { id := some (mkActionId baseId acc.2)
          category := some mapping.category
          type := some mapping.type
          target := none
          value := none
          unit := none
          priority := some (if mapping.priority = "" then
            mapDeviationPriority deviation.severity else mapping.priority)
          source := some "deviation"
          reason := some mapping.reason
          context := some actionContext
          requiresApproval := some mapping.requiresApproval
          status := some "proposed"
          decision := none
          timestamps := some (buildActionTimestamps now emptyTimestamps)
          learningKey := some (if mapping.learningKey = "" then
            "deviation_generic" else mapping.learningKey)
          title := some mapping.title
          description := some mapping.description
          deviationRef := some deviationRef }
      if isDuplicateAction action acc.1 then (acc.1, acc.2 + 1)
      else (acc.1 ++ [action], acc.2 + 1))
    ([], 1)).1

/-- `normalizeActionForPersistence(action)` on an action record (non-object
inputs are returned as-is by the source; the record case is modelled
here). -/
def normalizeActionForPersistence (now : String) (action : Action) : Action :=
  { action with
    status := some (normalizeActionStatus action.status)
    decision := action.decision
    timestamps := some (buildActionTimestamps now (action.timestamps.getD emptyTimestamps))
    learningKey := some (strOr action.learningKey "unknown") }

/-- Observable outcome of the action flow of one `runAnalysis` call:
the merged `finalActions`, the final persisted `report.actions` value, and
whether an approval message was sent. -/
structure PipelineResult where
  finalActions : List Action
  persistedActions : List Action
  approvalRequested : Bool
deriving DecidableEq

/-- The action flow of `runAnalysis` (lines 930–994): skip flags, summary,
the three generators, dedup, and the unconditional `finally` block that
persists `report.actions` and — whenever any action exists — routes the
whole list through `requestApproval` (`markActionsSent` +
`persistActions`), regardless of `requiresApproval`.  `gptRefine` and
`gptSuggested` stand for the completion-service responses; with
`openaiConfigured = false` both are unused, exactly as in the source. -/
def runAnalysisActions (openaiConfigured : Bool) (gridPowerThreshold : Option ℚ)
    (gptRefine : List Action → List Action) (gptSuggested : List Action)
    (baseIdLive baseIdDev : ℕ) (now : String) (context0 : Context) : PipelineResult :=
  let skipEnergy : Bool := context0.liveEnergy.length = 0
  let energySummary := buildEnergySummary context0.liveEnergy
  let missing := getMissingEnergyValues context0.liveEnergy energySummary
  let skipAnalysis : Bool := skipEnergy || (!skipEnergy && !missing.isEmpty)
  let context := { context0 with summary := energySummary }
  let liveRuleActions := buildLiveRuleActions gridPowerThreshold baseIdLive now context
  let historyDeviationActions := buildDeviationActions baseIdDev now context
  let refinedHistoryActions :=
    if skipAnalysis then historyDeviationActions
    else if !openaiConfigured || historyDeviationActions.isEmpty then historyDeviationActions
    else gptRefine historyDeviationActions
  let gptSuggestedActions :=
    if skipAnalysis then []
    else if openaiConfigured then gptSuggested
    else []
  let finalActions := dedupeActions
    ((liveRuleActions ++ refinedHistoryActions ++ gptSuggestedActions).map some)
  let sentActions := finalActions.map (normalizeActionForPersistence now)
  let persisted :=
    if finalActions.isEmpty then finalActions
    else sentActions.map (normalizeActionForPersistence now)
  { finalActions := finalActions
    persistedActions := persisted
    approvalRequested := !finalActions.isEmpty }

/-- The C5 scenario context: live battery SOC 15 %, no deviations. -/
def batteryScenarioContext : Context :=
  { timestamp := "T"
    summary := buildEmptySummary
    liveEnergy := [⟨"batterySoc", JsNum.num 15⟩]
    liveWater := []
    liveTemperature := []
    deviations := [] }

/-- One analysis run on the C5 scenario with the completion service
disabled. -/
def batteryScenarioResult : PipelineResult :=
  runAnalysisActions false none (fun a => a) [] 17 23 "T" batteryScenarioContext

/-- Counterexample to C5 as stated: the scenario's single `protect_battery`
action is *not* executed immediately — the persisted list holds no
`executed` entry, and an approval round-trip is requested for it. -/
theorem battery_scenario_not_executed :
    (batteryScenarioResult.persistedActions.filter
      (fun a => a.status = some "executed")).length = 0 ∧
    batteryScenarioResult.persistedActions.length = 1 ∧
    batteryScenarioResult.approvalRequested = true := by
  decide

/-- C5 (amended). In the scenario — live battery SOC 15 %, no deviations,
completion service disabled — one analysis run produces exactly one action
(`protect_battery`, priority `high`, `requiresApproval = false`, source
`live-rule`), but `requiresApproval` is never consulted for dispatch: the
action is sent through the approval round-trip and persisted with status
`proposed`, not executed. -/
theorem battery_scenario_proposed :
    batteryScenarioResult.finalActions.map Action.type = [some "protect_battery"] ∧
    batteryScenarioResult.finalActions.map Action.priority = [some "high"] ∧
    batteryScenarioResult.finalActions.map Action.requiresApproval = [some false] ∧
    batteryScenarioResult.finalActions.map Action.source = [some "live-rule"] ∧
    batteryScenarioResult.persistedActions.map Action.status = [some "proposed"] ∧
    batteryScenarioResult.approvalRequested = true := by
  decide

/-- JSON whitespace (`JSON.parse` accepts space, tab, newline, carriage
return). -/
def jsWs (c : Char) : Bool :=
  c = ' ' || c = '\t' || c = '\n' || c = '\r'

/-- Skip leading JSON whitespace. -/
def skipWs (cs : List Char) : List Char :=
  cs.dropWhile jsWs

/-- ASCII decimal digit test. -/
def isDigitChar (c : Char) : Bool :=
  48 ≤ c.toNat && c.toNat ≤ 57

/-- Hexadecimal digit value for `\u` escapes. -/
def hexVal (c : Char) : Option ℕ :=
  if 48 ≤ c.toNat ∧ c.toNat ≤ 57 then some (c.toNat - 48)
  else if 97 ≤ c.toNat ∧ c.toNat ≤ 102 then some (c.toNat - 87)
  else if 65 ≤ c.toNat ∧ c.toNat ≤ 70 then some (c.toNat - 55)
  else none

/-- Parse the body of a JSON string (after the opening quote), handling the
JSON escape sequences and rejecting raw control characters. -/
def parseStringBody (fuel : ℕ) (cs : List Char) (acc : List Char) :
    Option (String × List Char) :=
  match fuel, cs with
  | 0, _ => none
  | _, [] => none
  | fuel + 1, c :: rest =>
    if c = '"' then some (String.mk acc.reverse, rest)
    else if c = '\\' then
      match rest with
      | [] => none
      | e :: rest2 =>
        if e = '"' then parseStringBody fuel rest2 ('"' :: acc)
        else if e = '\\' then parseStringBody fuel rest2 ('\\' :: acc)
        else if e = '/' then parseStringBody fuel rest2 ('/' :: acc)
        else if e = 'b' then parseStringBody fuel rest2 ('\x08' :: acc)
        else if e = 'f' then parseStringBody fuel rest2 ('\x0c' :: acc)
        else if e = 'n' then parseStringBody fuel rest2 ('\n' :: acc)
        else if e = 'r' then parseStringBody fuel rest2 ('\x0d' :: acc)
        else if e = 't' then parseStringBody fuel rest2 ('\t' :: acc)
        else if e = 'u' then
          match rest2 with
          | h1 :: h2 :: h3 :: h4 :: rest3 =>
            match hexVal h1, hexVal h2, hexVal h3, hexVal h4 with
            | some a, some b, some c2, some d =>
              parseStringBody fuel rest3 (Char.ofNat (((a * 16 + b) * 16 + c2) * 16 + d) :: acc)
            | _, _, _, _ => none
          | _ => none
        else none
    else if c.toNat < 32 then none
    else parseStringBody fuel rest (c :: acc)

/-- Accumulate a run of decimal digits: value, digit count, rest. -/
def parseDigitsAux : List Char → ℕ → ℕ → ℕ × ℕ × List Char
  | [], acc, count => (acc, count, [])
  | c :: rest, acc, count =>
    if isDigitChar c then parseDigitsAux rest (acc * 10 + (c.toNat - 48)) (count + 1)
    else (acc, count, c :: rest)

/-- Fraction and exponent of a JSON number after the integer part. -/
def parseNumberTail (intPart : ℕ) (cs : List Char) : Option (ℚ × List Char) :=
  let fracRes : Option (ℚ × List Char) :=
    match cs with
    | '.' :: rest =>
      match rest with
      | c :: _ =>
        if isDigitChar c then
          let t := parseDigitsAux rest 0 0
          some ((intPart : ℚ) + (t.1 : ℚ) / ((10 : ℚ) ^ t.2.1), t.2.2)
        else none
      | [] => none
    | _ => some ((intPart : ℚ), cs)
  match fracRes with
  | none => none
  | some (mant, cs2) =>
    match cs2 with
    | c :: rest =>
      if c = 'e' ∨ c = 'E' then
        let signedRest : Bool × List Char :=
          match rest with
          | '+' :: r => (false, r)
          | '-' :: r => (true, r)
          | _ => (false, rest)
        match signedRest.2 with
        | d :: _ =>
          if isDigitChar d then
            let t := parseDigitsAux signedRest.2 0 0
            let e : ℚ := (10 : ℚ) ^ t.1
            some (if signedRest.1 then mant / e else mant * e, t.2.2)
          else none
        | [] => none
      else some (mant, cs2)
    | [] => some (mant, cs2)

/-- Magnitude of a JSON number (no sign); leading zeros are rejected as in
`JSON.parse`. -/
def parseNumberMag (cs : List Char) : Option (ℚ × List Char) :=
  match cs with
  | c :: rest =>
    if c = '0' then parseNumberTail 0 rest
    else if isDigitChar c then
      let t := parseDigitsAux rest (c.toNat - 48) 1
      parseNumberTail t.1 t.2.2
    else none
  | [] => none

/-- A JSON number with optional leading minus. -/
def parseNumber (cs : List Char) : Option (ℚ × List Char) :=
  match cs with
  | '-' :: rest => (parseNumberMag rest).map fun p => (-p.1, p.2)
  | _ => parseNumberMag cs

/-- JavaScript property assignment on an object field list: replace the
value in place when the key exists, append otherwise (this is also how
`JSON.parse` resolves duplicate keys: last value wins, original position
kept). -/
def jsObjectSet (fields : List (String × Json)) (key : String) (v : Json) :
    List (String × Json) :=
  if fields.any (fun p => p.1 = key) then
    fields.map (fun p => if p.1 = key then (key, v) else p)
  else fields ++ [(key, v)]

mutual

/-- One JSON value (recursive descent, fuel-bounded; the fuel passed by
`jsonParseAll` always suffices for its input). -/
def parseValue (fuel : ℕ) (cs : List Char) : Option (Json × List Char) :=
  match fuel with
  | 0 => none
  | fuel + 1 =>
    match skipWs cs with
    | [] => none
    | c :: rest =>
      if c = '"' then
        match parseStringBody (rest.length + 1) rest [] with
        | some (s, r) => some (Json.str s, r)
        | none => none
      else if c = '[' then
        match parseArrayItems fuel rest with
        | some (items, r) => some (Json.arr items, r)
        | none => none
      else if c = '\x7b' then
        match parseObjMembers fuel rest with
        | some (fields, r) => some (Json.obj fields, r)
        | none => none
      else if c = 't' then
        match rest with
        | 'r' :: 'u' :: 'e' :: r => some (Json.bool true, r)
        | _ => none
      else if c = 'f' then
        match rest with
        | 'a' :: 'l' :: 's' :: 'e' :: r => some (Json.bool false, r)
        | _ => none
      else if c = 'n' then
        match rest with
        | 'u' :: 'l' :: 'l' :: r => some (Json.null, r)
        | _ => none
      else
        match parseNumber (c :: rest) with
        | some (q, r) => some (Json.num q, r)
        | none => none

/-- Elements of a JSON array after the opening bracket. -/
def parseArrayItems (fuel : ℕ) (cs : List Char) : Option (List Json × List Char) :=
  match fuel with
  | 0 => none
  | fuel + 1 =>
    match skipWs cs with
    | ']' :: rest => some ([], rest)
    | other =>
      match parseValue fuel other with
      | some (v, r) => parseArrayRest fuel [v] r
      | none => none

/-- Remaining elements of a JSON array after the first value. -/
def parseArrayRest (fuel : ℕ) (acc : List Json) (cs : List Char) :
    Option (List Json × List Char) :=
  match fuel with
  | 0 => none
  | fuel + 1 =>
    match skipWs cs with
    | ']' :: rest => some (acc, rest)
    | ',' :: rest =>
      match parseValue fuel rest with
      | some (v, r) => parseArrayRest fuel (acc ++ [v]) r
      | none => none
    | _ => none

/-- Members of a JSON object after the opening brace. -/
def parseObjMembers (fuel : ℕ) (cs : List Char) :
    Option (List (String × Json) × List Char) :=
  match fuel with
  | 0 => none
  | fuel + 1 =>
    match skipWs cs with
    | '\x7d' :: rest => some ([], rest)
    | '"' :: rest =>
      match parseMember fuel rest with
      | some (k, v, r) => parseObjRest fuel (jsObjectSet [] k v) r
      | none => none
    | _ => none

/-- One `"key": value` member (after the opening quote of the key). -/
def parseMember (fuel : ℕ) (cs : List Char) : Option (String × Json × List Char) :=
  match fuel with
  | 0 => none
  | fuel + 1 =>
    match parseStringBody (cs.length + 1) cs [] with
    | some (k, r) =>
      match skipWs r with
      | ':' :: r2 =>
        match parseValue fuel r2 with
        | some (v, r3) => some (k, v, r3)
        | none => none
      | _ => none
    | none => none

/-- Remaining members of a JSON object after the first member. -/
def parseObjRest (fuel : ℕ) (acc : List (String × Json)) (cs : List Char) :
    Option (List (String × Json) × List Char) :=
  match fuel with
  | 0 => none
  | fuel + 1 =>
    match skipWs cs with
    | '\x7d' :: rest => some (acc, rest)
    | ',' :: rest =>
      match skipWs rest with
      | '"' :: r2 =>
        match parseMember fuel r2 with
        | some (k, v, r3) => parseObjRest fuel (jsObjectSet acc k v) r3
        | none => none
      | _ => none
    | _ => none

end

/-- `JSON.parse(s)`: one JSON value covering the whole input (up to
whitespace), else failure. -/
def jsonParseAll (s : String) : Option Json :=
  match parseValue (2 * s.length + 2) s.data with
  | some (v, rest) => if (skipWs rest).isEmpty then some v else none
  | none => none

/-- Property lookup on an object field list; later duplicates win (the
parser already collapses duplicates, and JavaScript keeps the last value). -/
def jsonGetFields : List (String × Json) → String → Option Json
  | [], _ => none
  | (k, v) :: rest, key =>
    match jsonGetFields rest key with
    | some r => some r
    | none => if k = key then some v else none

/-- JavaScript property read `value[key]`: defined on objects, `undefined`
on everything else (including arrays, whose numeric indices are never read
here). -/
def jsonGet : Json → String → Option Json
  | Json.obj fields, key => jsonGetFields fields key
  | _, _ => none

/-- JavaScript truthiness of a JSON value. -/
def jsonTruthy : Json → Bool
  | .null => false
  | .bool b => b
  | .num q => q ≠ 0
  | .str s => s ≠ ""
  | .arr _ => true
  | .obj _ => true

mutual

/-- JavaScript `String(v)` of a JSON value.  Numbers use the integral
formatting of `jsNumToString`; arrays stringify as their comma-joined
elements (`null` elements become empty); objects as `[object Object]`. -/
def jsToString : Json → String
  | .null => "null"
  | .bool b => if b then "true" else "false"
  | .num q => jsNumToString q
  | .str s => s
  | .arr items => jsArrayToString items
  | .obj _ => "[object Object]"

/-- `Array.prototype.join(',')` with JavaScript element stringification. -/
def jsArrayToString : List Json → String
  | [] => ""
  | [Json.null] => ""
  | [x] => jsToString x
  | Json.null :: xs => "," ++ jsArrayToString xs
  | x :: xs => jsToString x ++ "," ++ jsArrayToString xs

end

/-- JavaScript `String(v || d)` for an optional JSON value with a string
default. -/
def jsStringOr (v : Option Json) (d : String) : String :=
  match v with
  | some j => if jsonTruthy j then jsToString j else d
  | none => d

/-- JavaScript `String.prototype.trim` (ASCII whitespace). -/
def jsTrim (s : String) : String :=
  String.mk (((s.data.dropWhile jsWs).reverse.dropWhile jsWs).reverse)

/-- `formatActionTitle(type)`: underscores to spaces, then each word-start
character uppercased (`\b\w` with `\w = [A-Za-z0-9_]`). -/
def formatActionTitle (type : String) : String :=
  if type = "" then "Aktion"
  else
    let replaced := type.data.map fun c => if c = '_' then ' ' else c
    let isWordChar : Char → Bool := fun c => c.isAlpha || isDigitChar c || c = '_'
    String.mk (replaced.foldl
      (fun (acc : List Char × Bool) c =>
        let c2 := if isWordChar c && ! acc.2 then c.toUpper else c
        (acc.1 ++ [c2], isWordChar c))
      ([], false)).1

/-- `normalizeActionCategory` applied to a raw JSON field
(`String(category || '')` then the category table). -/
def normalizeActionCategoryJson (v : Option Json) : String :=
  normalizeActionCategory (some (jsStringOr v ""))

/-- `normalizeActionPriority(priority)`. -/
def normalizeActionPriority (v : Option Json) : String :=
  let s := toLowerString (jsStringOr v "")
  if s = "high" then "high"
  else if s = "medium" then "medium"
  else "low"

/-- `normalizeGptAction(entry, actionContext, baseId, index)` (lines
2244–2282) on a parsed JSON entry; `now` stands for the timestamp taken in
`buildActionTimestamps()`.  `typeof entry === 'object' && entry` admits
objects and arrays (property reads on arrays yield `undefined`). -/
def normalizeGptAction (now : String) (actionContext : ActionCtx) (baseId index : ℕ)
    (entry : Json) : Option Action :=
  let isObject : Bool :=
    match entry with
    | Json.obj _ => true
    | Json.arr _ => true
    | _ => false
  if ¬ isObject then none
  else
    let type :=
      match jsonGet entry "type" with
      | some (Json.str s) => jsTrim s
      | _ => ""
    if type = "" then none
    else
      let category := normalizeActionCategoryJson (jsonGet entry "category")
      some
        { id := some (match jsonGet entry "id" with
            | some (Json.str s) => if jsTrim s ≠ "" then s else mkActionId baseId index
            | _ => mkActionId baseId index)
          category := some category
          type := some type
          target := jsonGet entry "target"
          value := (match jsonGet entry "value" with
            | some (Json.num q) => some (Json.num q)
            | some (Json.bool b) => some (Json.bool b)
            | _ => none)
          unit := (match jsonGet entry "unit" with
            | some (Json.str s) => some s
            | _ => none)
          priority := some (normalizeActionPriority (jsonGet entry "priority"))
          source := some "gpt"
          reason := some (match jsonGet entry "reason" with
            | some (Json.str s) => s
            | _ => "GPT Vorschlag")
          context := some actionContext
          requiresApproval := some (match jsonGet entry "requiresApproval" with
            | some (Json.bool b) => b
            | _ => true)
          status := some "proposed"
          decision := none
          timestamps := some (buildActionTimestamps now emptyTimestamps)
          learningKey := some (match jsonGet entry "learningKey" with
            | some (Json.str s) => if jsTrim s ≠ "" then s else category ++ "_" ++ type
            | _ => category ++ "_" ++ type)
          title := some (match jsonGet entry "title" with
            | some (Json.str s) => s
            | _ => formatActionTitle type)
          description := (match jsonGet entry "description" with
            | some (Json.str s) => some s
            | _ => none) }

/-- The suffix of the text starting at its first `[`. -/
def dropToBracket : List Char → Option (List Char)
  | [] => none
  | c :: rest => if c = '[' then some (c :: rest) else dropToBracket rest

/-- The prefix ending at the last `]`, when one exists. -/
def trimAfterLastClose (cs : List Char) : Option (List Char) :=
  let r := cs.reverse.dropWhile fun c => c ≠ ']'
  if r.isEmpty then none else some r.reverse

/-- The match of `text.match(/\[[\s\S]*\]/)`: the regex is greedy, so it
spans from the *first* `[` to the *last* `]` of the whole text. -/
def regexArrayMatch (s : String) : Option String :=
  match dropToBracket s.data with
  | none => none
  | some suffixChars =>
    match trimAfterLastClose suffixChars with
    | none => none
    | some span => some (String.mk span)

/-- `parseJsonArray(text)` (lines 2205–2219): falsy input and failed
matches or parses all yield null, caught locally — no exception escapes. -/
def parseJsonArray (text : String) : Option Json :=
  if text = "" then none
  else
    match regexArrayMatch text with
    | none => none
    | some m =>
      match jsonParseAll m with
      | some v => some v
      | none => none

/-- The suggestion loop of `buildGptSuggestedActions` (lines 2095–2112)
applied to a reply text: parse, require an array, then validate each entry
independently (`index++` counts every entry, also discarded ones). -/
def gptActionsFromText (now : String) (actionContext : ActionCtx) (baseId : ℕ)
    (text : String) : List Action :=
  match parseJsonArray text with
  | some (Json.arr entries) =>
    entries.enum.filterMap fun p => normalizeGptAction now actionContext baseId (p.1 + 1) p.2
  | some _ => []
  | none => []

/-- Modelled from the spec: "the first JSON array literal found in the free
text" — the array parsed at the first position where a complete JSON array
literal starts, trailing text allowed.  This is the claimed extraction
rule, to be compared with the greedy-regex extraction the code performs. -/
def firstJsonArrayAux (fuel : ℕ) : List Char → Option Json
  | [] => none
  | c :: rest =>
    if c = '[' then
      match parseValue fuel (c :: rest) with
      | some (Json.arr items, _) => some (Json.arr items)
      | _ => firstJsonArrayAux fuel rest
    else firstJsonArrayAux fuel rest

/-- Modelled from the spec: the first JSON array literal of a text. -/
def firstJsonArrayLiteral (s : String) : Option Json :=
  firstJsonArrayAux (2 * s.length + 2) s.data

/-- Modelled from the spec: suggestions obtained from the first JSON array
literal, each entry validated independently as the code does. -/
def specGptSuggestions (now : String) (actionContext : ActionCtx) (baseId : ℕ)
    (text : String) : List Action :=
  match firstJsonArrayLiteral text with
  | some (Json.arr entries) =>
    entries.enum.filterMap fun p => normalizeGptAction now actionContext baseId (p.1 + 1) p.2
  | _ => []

/-- An empty action context for concrete suggestion evaluations. -/
def emptyActionCtx : ActionCtx := ⟨"T", none, none, none, none⟩

/-- A completion-service reply containing two JSON array literals separated
by free text. -/
def twoArrayReply : String := "[\x7b\"type\": \"a\"\x7d] x []"

/-- Counterexample to C9 as stated: on a reply with two array literals the
greedy regex spans from the first `[` to the last `]`, the parse of that
span fails, and the code yields no suggestions — whereas extracting the
*first* JSON array literal (the claimed rule) yields one suggestion of type
`a`.  The two extraction rules are observably different. -/
theorem gpt_reply_two_arrays :
    gptActionsFromText "T" emptyActionCtx 9 twoArrayReply = [] ∧
    (specGptSuggestions "T" emptyActionCtx 9 twoArrayReply).map Action.type =
      [some "a"] ∧
    regexArrayMatch twoArrayReply = some "[\x7b\"type\": \"a\"\x7d] x []" := by
  refine ⟨rfl, rfl, rfl⟩

lemma strOr_some_empty (s : String) : strOr (some s) "" = s := by
  simp only [strOr]
  split
  · rename_i h
    exact h.symm
  · rfl

lemma normalizeActionCategory_of_not_contains (v : Option String)
    (hf : ["energy", "heating", "water", "pv", "safety"].contains
      (toLowerString (strOr v "")) = false) :
    normalizeActionCategory v = "energy" := by
  simp only [normalizeActionCategory, hf, Bool.false_eq_true, if_false]
  split <;> rfl

lemma normalizeActionCategory_mem (v : Option String) :
    normalizeActionCategory v ∈ ["energy", "heating", "water", "pv", "safety"] := by
  by_cases h : ["energy", "heating", "water", "pv", "safety"].contains
      (toLowerString (strOr v "")) = true
  · have heq : normalizeActionCategory v = toLowerString (strOr v "") := by
      simp only [normalizeActionCategory, h, if_true]
    rw [heq]
    simpa using h
  · have hf : ["energy", "heating", "water", "pv", "safety"].contains
        (toLowerString (strOr v "")) = false := by
      simpa using h
    rw [normalizeActionCategory_of_not_contains v hf]
    simp

/-- C9 (amended). Completion-service suggestions are obtained by taking the
substring from the first `[` to the last `]` of the reply and parsing it as
JSON (this equals the first JSON array literal only when the reply contains
a single bracketed span); every entry is validated independently: entries
lacking a non-empty string `type` are discarded, categories always
normalize into the five known ones with unknown values falling back to
`energy`, and a reply with no parseable span yields an empty suggestion
list — all paths are total, so no exception escapes. -/
theorem gpt_suggestions_defensive (now text : String) (actionContext : ActionCtx)
    (baseId index : ℕ) :
    (parseJsonArray text = none → gptActionsFromText now actionContext baseId text = []) ∧
    (∀ entry : Json, (∀ s, jsonGet entry "type" = some (Json.str s) → jsTrim s = "") →
      normalizeGptAction now actionContext baseId index entry = none) ∧
    (∀ v : Option Json,
      normalizeActionCategoryJson v ∈ ["energy", "heating", "water", "pv", "safety"]) ∧
    (∀ v : Option Json,
      ¬ toLowerString (jsStringOr v "") ∈ ["energy", "heating", "water", "pv", "safety"] →
      normalizeActionCategoryJson v = "energy") := by
  refine ⟨?_, ?_, ?_, ?_⟩
  · intro h
    simp [gptActionsFromText, h]
  · intro entry htype
    unfold normalizeGptAction
    cases entry with
    | obj fields =>
      simp only [if_false, Bool.not_true]
      cases hget : jsonGet (Json.obj fields) "type" with
      | none => simp [hget]
      | some v =>
        cases v with
        | str s => simp [hget, htype s hget]
        | null => simp [hget]
        | bool b => simp [hget]
        | num q => simp [hget]
        | arr items => simp [hget]
        | obj f2 => simp [hget]
    | arr items =>
      have hget : jsonGet (Json.arr items) "type" = none := rfl
      simp [hget]
    | null => simp
    | bool b => simp
    | num q => simp
    | str s => simp
  · intro v
    exact normalizeActionCategory_mem (some (jsStringOr v ""))
  · intro v hmem
    have hc : ["energy", "heating", "water", "pv", "safety"].contains
        (toLowerString (jsStringOr v "")) = false := by
      cases hx : ["energy", "heating", "water", "pv", "safety"].contains
          (toLowerString (jsStringOr v "")) with
      | false => rfl
      | true => exact absurd (by simpa using hx) hmem
    unfold normalizeActionCategoryJson
    exact normalizeActionCategory_of_not_contains (some (jsStringOr v ""))
      (by rw [strOr_some_empty]; exact hc)

/-- Witness for `gpt_suggestions_defensive`: a reply with no array yields no
suggestions; an entry without a type is discarded; the category `Battery`
(not one of the five) falls back to `energy`. -/
theorem gpt_suggestions_defensive_witness :
    gptActionsFromText "T" emptyActionCtx 9 "no array here" = [] ∧
    normalizeGptAction "T" emptyActionCtx 9 1 (Json.obj [("reason", Json.str "x")]) =
      none ∧
    normalizeActionCategoryJson (some (Json.str "Battery")) = "energy" := by
  refine ⟨?_, ?_, ?_⟩
  · exact (gpt_suggestions_defensive "T" "no array here" emptyActionCtx 9 1).1 rfl
  · exact (gpt_suggestions_defensive "T" "x" emptyActionCtx 9 1).2.1
      (Json.obj [("reason", Json.str "x")]) (by intro s hs; cases hs)
  · exact (gpt_suggestions_defensive "T" "x" emptyActionCtx 9 1).2.2.2
      (some (Json.str "Battery")) (by decide)

/-- JavaScript `v || d` on an optional JSON field with a JSON default. -/
def jsonFieldOr (v : Option Json) (d : Json) : Json :=
  match v with
  | some j => if jsonTruthy j then j else d
  | none => d

/-- `buildActionTimestamps(existing)` at the persistence boundary, where
`existing` is raw JSON (`action.timestamps || {}`). -/
def buildActionTimestampsJson (now : String) (existing : Json) : Json :=
  Json.obj
    [("createdAt", jsonFieldOr (jsonGet existing "createdAt") (Json.str now)),
     ("decidedAt", jsonFieldOr (jsonGet existing "decidedAt") Json.null),
     ("executedAt", jsonFieldOr (jsonGet existing "executedAt") Json.null)]

/-- `normalizeActionStatus(status)` on a raw JSON field
(`String(status || 'proposed').toLowerCase()` then the status table). -/
def normalizeActionStatusJson (v : Option Json) : String :=
  normalizeStatusString (jsStringOr v "proposed")

/-- Whether `typeof value === 'object' && value` holds (objects and arrays;
`null` is falsy). -/
def isJsObject : Json → Bool
  | Json.obj _ => true
  | Json.arr _ => true
  | _ => false

/-- The field list of `{...action}`: object fields, or index-keyed fields
for an array. -/
def spreadFields : Json → List (String × Json)
  | Json.obj fields => fields
  | Json.arr items => items.enum.map fun p => (toString p.1, p.2)
  | _ => []

/-- `normalizeActionForPersistence(action)` (lines 2728–2742) on raw JSON:
non-objects are returned as-is; objects (and arrays) are spread and get
`status`, `decision`, `timestamps` and `learningKey` overridden. -/
def normalizeActionForPersistenceJson (now : String) (action : Json) : Json :=
  if ¬ isJsObject action then action
  else
    let ts := buildActionTimestampsJson now
      (jsonFieldOr (jsonGet action "timestamps") (Json.obj []))
    let decision : Json :=
      match jsonGet action "decision" with
      | none => Json.null
      | some Json.null => Json.null
      | some v => v
    let f1 := jsObjectSet (spreadFields action) "status"
      (Json.str (normalizeActionStatusJson (jsonGet action "status")))
    let f2 := jsObjectSet f1 "decision" decision
    let f3 := jsObjectSet f2 "timestamps" ts
    let f4 := jsObjectSet f3 "learningKey"
      (jsonFieldOr (jsonGet action "learningKey") (Json.str "unknown"))
    Json.obj f4

/-- `loadActionsFromState()` (lines 3028–3043): a missing or falsy stored
value, a parse failure, or a non-array parse all yield the empty list;
otherwise every entry is mapped through the persistence normalizer. -/
def loadActionsFromState (now : String) (stored : Option String) : List Json :=
  match stored with
  | none => []
  | some s =>
    if s = "" then []
    else
      match jsonParseAll s with
      | some (Json.arr items) => items.map (normalizeActionForPersistenceJson now)
      | some _ => []
      | none => []

lemma jsonGetFields_append_single (l : List (String × Json)) (k : String) (v : Json) :
    jsonGetFields (l ++ [(k, v)]) k = some v := by
  induction l with
  | nil => simp [jsonGetFields]
  | cons p rest ih => simp [jsonGetFields, ih]

lemma jsonGetFields_append_single_ne (l : List (String × Json)) (k k2 : String) (v : Json)
    (h : k2 ≠ k) : jsonGetFields (l ++ [(k, v)]) k2 = jsonGetFields l k2 := by
  induction l with
  | nil =>
    simp [jsonGetFields]
    exact fun hc => h hc.symm
  | cons p rest ih => simp [jsonGetFields, ih]

lemma jsonGetFields_not_any (fields : List (String × Json)) (key : String)
    (h : fields.any (fun p => p.1 = key) = false) : jsonGetFields fields key = none := by
  induction fields with
  | nil => rfl
  | cons p rest ih =>
    simp only [List.any_cons, Bool.or_eq_false_iff, decide_eq_false_iff_not] at h
    simp [jsonGetFields, ih h.2, h.1]

lemma jsonGetFields_map_set_self (fields : List (String × Json)) (key : String) (v : Json)
    (h : fields.any (fun p => p.1 = key) = true) :
    jsonGetFields (fields.map fun p => if p.1 = key then (key, v) else p) key = some v := by
  induction fields with
  | nil => simp at h
  | cons p rest ih =>
    by_cases hr : rest.any (fun p => p.1 = key) = true
    · simp [jsonGetFields, ih hr]
    · have hrf : rest.any (fun p => p.1 = key) = false := by
        cases hx : rest.any (fun p => p.1 = key) with
        | false => rfl
        | true => exact absurd hx hr
      have hp : p.1 = key := by
        simp only [List.any_cons, hrf, Bool.or_false, decide_eq_true_eq] at h
        exact h
      have hmap : (rest.map fun p => if p.1 = key then (key, v) else p) = rest := by
        calc (rest.map fun p => if p.1 = key then (key, v) else p)
            = rest.map id := by
              apply List.map_congr_left
              intro a ha
              have hne : ¬ a.1 = key := by
                intro hc
                have : rest.any (fun p => p.1 = key) = true :=
                  List.any_eq_true.2 ⟨a, ha, by simp [hc]⟩
                rw [this] at hrf
                cases hrf
              simp [hne]
          _ = rest := List.map_id rest
      have hhead : (if p.1 = key then ((key, v) : String × Json) else p) = (key, v) :=
        if_pos hp
      have hnone := jsonGetFields_not_any rest key hrf
      simp only [List.map_cons]
      rw [hhead, hmap]
      simp [jsonGetFields, hnone]

lemma jsonGetFields_map_set_ne (fields : List (String × Json)) (key k2 : String) (v : Json)
    (h : k2 ≠ key) :
    jsonGetFields (fields.map fun p => if p.1 = key then (key, v) else p) k2 =
      jsonGetFields fields k2 := by
  induction fields with
  | nil => rfl
  | cons p rest ih =>
    have hkk : ¬ key = k2 := fun hc => h hc.symm
    by_cases hp : p.1 = key
    · have hhead : (if p.1 = key then ((key, v) : String × Json) else p) = (key, v) :=
        if_pos hp
      simp only [List.map_cons]
      rw [hhead]
      simp only [jsonGetFields, ih]
      cases hg : jsonGetFields rest k2
      · simp [hkk, hp]
      · simp
    · have hhead : (if p.1 = key then ((key, v) : String × Json) else p) = p :=
        if_neg hp
      simp only [List.map_cons]
      rw [hhead]
      simp only [jsonGetFields, ih]

lemma jsonGetFields_set (fields : List (String × Json)) (key : String) (v : Json) :
    jsonGetFields (jsObjectSet fields key v) key = some v := by
  unfold jsObjectSet
  split
  · exact jsonGetFields_map_set_self fields key v (by assumption)
  · exact jsonGetFields_append_single fields key v

lemma jsonGetFields_set_ne (fields : List (String × Json)) (key k2 : String) (v : Json)
    (h : k2 ≠ key) :
    jsonGetFields (jsObjectSet fields key v) k2 = jsonGetFields fields k2 := by
  unfold jsObjectSet
  split
  · exact jsonGetFields_map_set_ne fields key k2 v h
  · exact jsonGetFields_append_single_ne fields key k2 v h

lemma normalizeStatusString_mem (s : String) :
    normalizeStatusString s ∈ actionStatusValues := by
  by_cases h : actionStatusValues.contains (toLowerString s) = true
  · have heq : normalizeStatusString s = toLowerString s := by
      simp only [normalizeStatusString, h, if_true]
    rw [heq]
    simpa using h
  · have hf : actionStatusValues.contains (toLowerString s) = false := by
      cases hx : actionStatusValues.contains (toLowerString s) with
      | false => rfl
      | true => exact absurd hx h
    have heq : normalizeStatusString s = "proposed" := by
      simp only [normalizeStatusString, hf, Bool.false_eq_true, if_false]
      split <;> rfl
    rw [heq]
    decide

lemma jsonTruthy_jsonFieldOr (v : Option Json) (d : Json) (hd : jsonTruthy d = true) :
    jsonTruthy (jsonFieldOr v d) = true := by
  cases v with
  | none => exact hd
  | some j =>
    simp only [jsonFieldOr]
    split
    · assumption
    · exact hd

/-- C10 (amended). At the persistence boundary, a missing, unparsable or
non-array stored value yields the empty list; every *object* (or array)
entry is normalized — status drawn from the five recognised values (with
`sent` and unknown statuses mapped to `proposed`), decision present,
timestamps object present with a truthy `createdAt`, learningKey truthy
(defaulting to `unknown`) — while non-object entries (null, numbers,
strings, booleans) are passed through unchanged. -/
theorem loadActionsFromState_normalized (now : String) (hnow : now ≠ "") (s : String)
    (action : Json) :
    loadActionsFromState now none = [] ∧
    (jsonParseAll s = none → loadActionsFromState now (some s) = []) ∧
    (∀ v, jsonParseAll s = some v → (∀ items, v ≠ Json.arr items) →
      loadActionsFromState now (some s) = []) ∧
    (∀ items, jsonParseAll s = some (Json.arr items) →
      loadActionsFromState now (some s) =
        items.map (normalizeActionForPersistenceJson now)) ∧
    (isJsObject action = false → normalizeActionForPersistenceJson now action = action) ∧
    (isJsObject action = true →
      (∃ st, jsonGet (normalizeActionForPersistenceJson now action) "status" =
          some (Json.str st) ∧ st ∈ actionStatusValues) ∧
      (∃ d, jsonGet (normalizeActionForPersistenceJson now action) "decision" = some d) ∧
      (∃ ts c, jsonGet (normalizeActionForPersistenceJson now action) "timestamps" =
          some ts ∧ jsonGet ts "createdAt" = some c ∧ jsonTruthy c = true) ∧
      (∃ lk, jsonGet (normalizeActionForPersistenceJson now action) "learningKey" =
          some lk ∧ jsonTruthy lk = true)) := by
  have hempty : jsonParseAll "" = none := rfl
  refine ⟨rfl, ?_, ?_, ?_, ?_, ?_⟩
  · intro h
    by_cases hs : s = ""
    · simp [loadActionsFromState, hs]
    · simp [loadActionsFromState, hs, h]
  · intro v hv hne
    by_cases hs : s = ""
    · simp [loadActionsFromState, hs]
    · cases v with
      | arr items => exact absurd rfl (hne items)
      | null => simp [loadActionsFromState, hs, hv]
      | bool b => simp [loadActionsFromState, hs, hv]
      | num q => simp [loadActionsFromState, hs, hv]
      | str t => simp [loadActionsFromState, hs, hv]
      | obj fields => simp [loadActionsFromState, hs, hv]
  · intro items hv
    have hs : ¬ s = "" := by
      intro hc
      rw [hc, hempty] at hv
      cases hv
    simp [loadActionsFromState, hs, hv]
  · intro h
    simp [normalizeActionForPersistenceJson, h]
  · intro h
    have hform : normalizeActionForPersistenceJson now action =
        Json.obj (jsObjectSet (jsObjectSet (jsObjectSet (jsObjectSet
          (spreadFields action) "status"
            (Json.str (normalizeActionStatusJson (jsonGet action "status"))))
          "decision" (match jsonGet action "decision" with
            | none => Json.null
            | some Json.null => Json.null
            | some v => v))
          "timestamps" (buildActionTimestampsJson now
            (jsonFieldOr (jsonGet action "timestamps") (Json.obj []))))
          "learningKey" (jsonFieldOr (jsonGet action "learningKey")
            (Json.str "unknown"))) := by
      simp [normalizeActionForPersistenceJson, h]
    refine ⟨?_, ?_, ?_, ?_⟩
    · refine ⟨normalizeActionStatusJson (jsonGet action "status"), ?_,
        normalizeStatusString_mem _⟩
      rw [hform]
      show jsonGetFields _ "status" = _
      rw [jsonGetFields_set_ne _ _ _ _ (by decide),
        jsonGetFields_set_ne _ _ _ _ (by decide),
        jsonGetFields_set_ne _ _ _ _ (by decide),
        jsonGetFields_set]
    · refine ⟨(match jsonGet action "decision" with
        | none => Json.null
        | some Json.null => Json.null
        | some v => v), ?_⟩
      rw [hform]
      show jsonGetFields _ "decision" = _
      rw [jsonGetFields_set_ne _ _ _ _ (by decide),
        jsonGetFields_set_ne _ _ _ _ (by decide),
        jsonGetFields_set]
    · refine ⟨buildActionTimestampsJson now
        (jsonFieldOr (jsonGet action "timestamps") (Json.obj [])),
        jsonFieldOr (jsonGet (jsonFieldOr (jsonGet action "timestamps") (Json.obj []))
          "createdAt") (Json.str now), ?_, ?_, ?_⟩
      · rw [hform]
        show jsonGetFields _ "timestamps" = _
        rw [jsonGetFields_set_ne _ _ _ _ (by decide), jsonGetFields_set]
      · show jsonGetFields _ "createdAt" = _
        simp [jsonGetFields]
      · exact jsonTruthy_jsonFieldOr _ _ (by simpa [jsonTruthy] using hnow)
    · refine ⟨jsonFieldOr (jsonGet action "learningKey") (Json.str "unknown"), ?_,
        jsonTruthy_jsonFieldOr (jsonGet action "learningKey") (Json.str "unknown")
          (by decide)⟩
      rw [hform]
      show jsonGetFields _ "learningKey" = _
      rw [jsonGetFields_set]

/-- Witness for `loadActionsFromState_normalized`: an unparsable stored
value yields no actions, and the legacy status `SENT` on a stored object
entry is normalized to `proposed`. -/
theorem loadActionsFromState_normalized_witness :
    loadActionsFromState "NOW" (some "not json") = [] ∧
    (∃ st, jsonGet (normalizeActionForPersistenceJson "NOW"
        (Json.obj [("status", Json.str "SENT")])) "status" =
        some (Json.str st) ∧ st ∈ actionStatusValues) ∧
    normalizeActionStatusJson (some (Json.str "SENT")) = "proposed" := by
  refine ⟨?_, ?_, rfl⟩
  · exact (loadActionsFromState_normalized "NOW" (by decide) "not json" Json.null).2.1 rfl
  · exact ((loadActionsFromState_normalized "NOW" (by decide) "x"
      (Json.obj [("status", Json.str "SENT")])).2.2.2.2.2 rfl).1

/-- Counterexample to C10 as stated: the persisted value `[null]` parses to
a one-element array whose entry is `null`; `normalizeActionForPersistence`
returns non-objects as-is, so the returned "action" has no status, no
timestamps and no learning key at all. -/
theorem loadActions_null_entry :
    loadActionsFromState "NOW" (some "[null]") = [Json.null] ∧
    jsonGet Json.null "status" = none ∧
    jsonGet Json.null "timestamps" = none := by
  exact ⟨rfl, rfl, rfl⟩

end AiAutopilot
